import Mathlib

/-!
# zmk analog input driver: `src/src/analog_input.c`

A shallow embedding of the sampling cycle (`analog_input_report_data`), the
work handler (`sampling_work_handler`) and the three control operations
(`active_set_value`, `sample_hz_set_value`, `enable_set_value`).

Machine integers are `Int`/`Nat`; every C conversion to a narrower type is an
explicit wrap (`wrap8`, `wrap16`, `wrap32`, `% 2^32`).  Timestamps are 64-bit
uptime milliseconds and are kept as unbounded `Int`.
-/

namespace AnalogInput

/-! ## Machine integers -/

/-- Conversion to `int8_t` (two's complement wrap). -/
def wrap8 (x : Int) : Int := (x + 128) % 256 - 128

/-- Conversion to `int16_t` (two's complement wrap). -/
def wrap16 (x : Int) : Int := (x + 32768) % 65536 - 32768

/-- Conversion to `int32_t` (two's complement wrap). -/
def wrap32 (x : Int) : Int := (x + 2147483648) % 4294967296 - 2147483648

/-- The value of `-EBUSY`. -/
def EBUSY_neg : Int := -16

/-! ## Data model -/

/-- Modelled from the spec: `struct analog_input_io_channel` is declared in
`zmk/drivers/analog_input.h`, which is not among the sources; the fields and
their types are the ones the spec's data model lists (`mv_mid: int16`,
`mv_deadzone: uint16`, `mv_min_max: uint16`, `scale_multiplier: int`,
`scale_divisor: int`). -/
structure analog_input_io_channel where
  mv_mid : Int
  mv_deadzone : Nat
  mv_min_max : Nat
  invert : Bool
  scale_multiplier : Int
  scale_divisor : Int
  report_on_change_only : Bool
  evt_type : Nat
  input_code : Nat

/-- Modelled from the spec: `struct analog_input_config` (same missing header);
`io_channels_len` is the length of the list. -/
structure analog_input_config where
  io_channels : List analog_input_io_channel

/-- Channel count `config->io_channels_len`. -/
def analog_input_config.io_channels_len (c : analog_input_config) : Nat :=
  c.io_channels.length

/-- Modelled from the spec: `struct analog_input_data` (same missing header),
restricted to the fields the modelled functions touch, together with the two
function-local statics `last_smp_time` and `last_rpt_time` of
`analog_input_report_data` (lines 31-32). -/
structure analog_input_data where
  ready : Bool
  actived : Bool
  enabled : Bool
  sampling_hz : Nat
  error_count : Nat
  last_successful_read : Nat
  delta : List Int
  prev : List Int
  last_smp_time : Int
  last_rpt_time : Int
deriving DecidableEq, Repr

/-! ## Signal conditioning, lines 75-92 -/

/-- Line 75: `int16_t v = mv - ch_cfg.mv_mid;`. -/
def cond_offset (ch : analog_input_io_channel) (mv : Int) : Int :=
  wrap16 (mv - ch.mv_mid)

/-- Lines 76-84: the deadzone block, with `int16_t dz = ch_cfg.mv_deadzone`. -/
def cond_deadzone (ch : analog_input_io_channel) (v : Int) : Int :=
  let dz := wrap16 (ch.mv_deadzone : Int)
  if dz ≠ 0 then
    let v1 := if v > 0 then (if v < dz then 0 else wrap16 (v - dz)) else v
    if v1 < 0 then (if v1 > -dz then 0 else wrap16 (v1 + dz)) else v1
  else v

/-- Lines 85-89: the clamp block, with `uint16_t mm = ch_cfg.mv_min_max`. -/
def cond_clamp (ch : analog_input_io_channel) (v : Int) : Int :=
  let mm : Int := (ch.mv_min_max : Int)
  if mm ≠ 0 then
    let v1 := if v > 0 ∧ v > mm then wrap16 mm else v
    if v1 < 0 ∧ v1 < -mm then wrap16 (-mm) else v1
  else v

/-- Line 91: `if (ch_cfg.invert) v *= -1;`. -/
def cond_invert (ch : analog_input_io_channel) (v : Int) : Int :=
  if ch.invert then wrap16 (v * -1) else v

/-- Line 92: `v = (int16_t)((v * scale_multiplier) / scale_divisor);`, the
product and the quotient in `int`. -/
def cond_rescale (ch : analog_input_io_channel) (v : Int) : Int :=
  wrap16 (Int.tdiv (wrap32 (v * ch.scale_multiplier)) ch.scale_divisor)

/-- The value `v` that lines 75-92 compute for one channel from its millivolt
reading. -/
def conditioned (ch : analog_input_io_channel) (mv : Int) : Int :=
  cond_rescale ch (cond_invert ch (cond_clamp ch (cond_deadzone ch (cond_offset ch mv))))

/-! ## The spec's `condition`, section 4.1, written from its five steps -/

/-- Spec step 1: `v = raw_mv - profile.mv_mid`. -/
def spec_offset (p : analog_input_io_channel) (raw_mv : Int) : Int :=
  raw_mv - p.mv_mid

/-- Spec step 2: symmetric deadzone. -/
def spec_deadzone (p : analog_input_io_channel) (v : Int) : Int :=
  if p.mv_deadzone > 0 then
    if v > 0 then (if v < p.mv_deadzone then 0 else v - p.mv_deadzone)
    else if v < 0 then (if -v < p.mv_deadzone then 0 else v + p.mv_deadzone)
    else v
  else v

/-- Spec step 3: clamp into `[-mv_min_max, mv_min_max]` when `mv_min_max > 0`. -/
def spec_clamp (p : analog_input_io_channel) (v : Int) : Int :=
  if p.mv_min_max > 0 then max (-(p.mv_min_max : Int)) (min v (p.mv_min_max : Int)) else v

/-- Spec step 4: negate when `invert`. -/
def spec_invert (p : analog_input_io_channel) (v : Int) : Int :=
  if p.invert then -v else v

/-- Spec step 5: `(v * scale_multiplier) / scale_divisor`, truncated toward zero. -/
def spec_rescale (p : analog_input_io_channel) (v : Int) : Int :=
  Int.tdiv (v * p.scale_multiplier) p.scale_divisor

/-- The spec's `condition(raw_mv, profile)`. -/
def condition_spec (raw_mv : Int) (p : analog_input_io_channel) : Int :=
  spec_rescale p (spec_invert p (spec_clamp p (spec_deadzone p (spec_offset p raw_mv))))

/-- A value fits in `int16_t`. -/
def fits16 (x : Int) : Prop := -32768 ≤ x ∧ x ≤ 32767

/-- A value fits in `int32_t`. -/
def fits32 (x : Int) : Prop := -2147483648 ≤ x ∧ x ≤ 2147483647

instance (x : Int) : Decidable (fits16 x) := by unfold fits16; infer_instance
instance (x : Int) : Decidable (fits32 x) := by unfold fits32; infer_instance

/-! ## Events, timer operations and results -/

/-- One call of `input_report` (line 158).  `channel` is a ghost tag, the loop
index `i` of the iteration that made the call; the call itself carries
`evt_type`, `input_code`, `value` and `sync`. -/
structure input_event where
  channel : Nat
  evt_type : Nat
  input_code : Nat
  value : Int
  sync : Bool
deriving DecidableEq, Repr

/-- A `k_timeout_t` argument: `K_USEC(n)` or `K_NO_WAIT`. -/
inductive k_timeout where
  | K_USEC (n : Nat)
  | K_NO_WAIT
deriving DecidableEq, Repr

/-- A call on `data->sampling_timer`. -/
inductive timer_op where
  | k_timer_start (duration period : k_timeout)
  | k_timer_stop
deriving DecidableEq, Repr

/-- How a call ends: it returns a code, or the sync scan of lines 132-139
reads `delta[i]`/`prev[i]` at an index outside the arrays (undefined
behaviour), or the scan never exits. -/
inductive call_end where
  | returned (code : Int)
  | out_of_bounds (i : Nat)
  | spins
deriving DecidableEq, Repr

/-- Input of one sampling cycle: `now` is `k_uptime_get()`; `err` is what
`adc_read` / `adc_read_async` / `k_poll` return when the acquisition is
attempted (lines 42-66); `signaled` is the poll signal under
`CONFIG_ADC_ASYNC` (true in the synchronous build); `mv i` is the millivolt
value `adc_raw_to_millivolts` yields for `as_buff[i]`. -/
structure tick_input where
  now : Int
  err : Int
  signaled : Bool
  mv : Nat → Int

/-- Result of one call of `analog_input_report_data`. -/
structure tick_output where
  data : analog_input_data
  events : List input_event
  ret : call_end
deriving DecidableEq, Repr

/-! ## The sampling loop, lines 38-104 -/

/-- Lines 94-103: the store into `data->delta[i]`. -/
def store_delta (ch : analog_input_io_channel) (v : Int) (i : Nat) (delta : List Int) :
    List Int :=
  if ch.report_on_change_only then delta.set i v
  else delta.set i (wrap32 (delta.getD i 0 + v))

/-- The loop of lines 38-104 after a successful acquisition, from index `i`
on, over the remaining channels. -/
def sample_loop (mv : Nat → Int) : List analog_input_io_channel → Nat → List Int → List Int
  | [], _, delta => delta
  | ch :: rest, i, delta =>
    sample_loop mv rest (i + 1) (store_delta ch (conditioned ch (mv i)) i delta)

/-! ## The purge, lines 111-116 -/

/-- The loop of lines 112-115 on one array: entries `0 .. n-1` become 0. -/
def purge_loop : Nat → List Int → List Int
  | 0, xs => xs
  | n + 1, xs => (purge_loop n xs).set n 0

/-! ## The sync scan, lines 131-139 -/

/-- Outcome of the scan loop. -/
inductive scan_result where
  | found (i : Nat)
  | out_of_bounds (i : Nat)
  | spins
deriving DecidableEq, Repr

/-- One iteration of the scan at index `i`: reads `delta[i]` and `prev[i]`;
`next` is what the loop does after `i--`. -/
def scan_probe (delta prev : List Int) (i : Nat) (next : scan_result) : scan_result :=
  match delta[i]?, prev[i]? with
  | some dv, some pv => if dv ≠ pv then scan_result.found i else next
  | _, _ => scan_result.out_of_bounds i

/-- The scan from index `i` down to index 0; `wrapped` is what follows when
`i--` takes the `uint8_t` index from 0 to 255 (`i >= 0` is always true). -/
def scan_down (delta prev : List Int) (wrapped : scan_result) : Nat → scan_result
  | 0 => scan_probe delta prev 0 wrapped
  | i + 1 => scan_probe delta prev (i + 1) (scan_down delta prev wrapped i)

/-- The loop of lines 132-139: `uint8_t i = io_channels_len - 1`, then
downwards, wrapping from 0 to 255; once all 256 indices compared equal the
loop repeats for ever. -/
def sync_scan (len : Nat) (delta prev : List Int) : scan_result :=
  scan_down delta prev (scan_down delta prev scan_result.spins 255) ((len + 255) % 256)

/-! ## The emission loop, lines 141-160 -/

/-- State threaded through the emission loop. -/
structure emit_state where
  delta : List Int
  prev : List Int
  last_rpt_time : Int
  events : List input_event

/-- The call of line 158 for channel `k` with profile `ch`:
`input_report(dev, evt_type, input_code, dv, k == idx_to_sync, K_NO_WAIT)`. -/
def event_for (ch : analog_input_io_channel) (k : Nat) (dv : Int) (idx_to_sync : Int) :
    input_event :=
  { channel := k, evt_type := ch.evt_type, input_code := ch.input_code, value := dv,
    sync := decide ((k : Int) = idx_to_sync) }

/-- Lines 147-158: the body of the emission loop for a reportable channel `i`
whose pending value is `dv`; `rpt` tells whether `last_rpt_time` exists
(`CONFIG_ANALOG_INPUT_REPORT_INTERVAL_MIN > 0`). -/
def emit_one (rpt : Bool) (now : Int) (idx_to_sync : Int) (ch : analog_input_io_channel)
    (i : Nat) (dv : Int) (st : emit_state) : emit_state :=
  { delta := st.delta.set i 0
    prev := if ch.report_on_change_only then st.prev.set i dv else st.prev
    last_rpt_time := if rpt then now else st.last_rpt_time
    events := st.events ++ [event_for ch i dv idx_to_sync] }

/-- The loop of lines 141-160 from index `i` on; `idx_to_sync` is the
`int8_t` value. -/
def emit_loop (rpt : Bool) (now : Int) (idx_to_sync : Int) :
    List analog_input_io_channel → Nat → emit_state → emit_state
  | [], _, st => st
  | ch :: rest, i, st =>
    if st.delta.getD i 0 ≠ st.prev.getD i 0 then
      emit_loop rpt now idx_to_sync rest (i + 1)
        (emit_one rpt now idx_to_sync ch i (st.delta.getD i 0) st)
    else emit_loop rpt now idx_to_sync rest (i + 1) st

/-! ## `analog_input_report_data`, lines 21-162 -/

/-- The test of line 111, present when the interval `I` is positive. -/
def purge_due (I : Nat) (d : analog_input_data) (now : Int) : Prop :=
  0 < I ∧ now - d.last_smp_time ≥ (I : Int)

/-- The test of line 122, present when the interval `I` is positive. -/
def suppress_due (I : Nat) (d : analog_input_data) (now : Int) : Prop :=
  0 < I ∧ now - d.last_rpt_time < (I : Int)

instance (I : Nat) (d : analog_input_data) (now : Int) : Decidable (purge_due I d now) := by
  unfold purge_due; infer_instance

instance (I : Nat) (d : analog_input_data) (now : Int) : Decidable (suppress_due I d now) := by
  unfold suppress_due; infer_instance

/-- Lines 111-116 on one of the two arrays. -/
def after_purge (I : Nat) (cfg : analog_input_config) (d : analog_input_data) (now : Int)
    (xs : List Int) : List Int :=
  if purge_due I d now then purge_loop cfg.io_channels_len xs else xs

/-- The emission loop of lines 141-160 as one tick enters it. -/
def emit_phase (I : Nat) (cfg : analog_input_config) (d : analog_input_data) (now : Int)
    (delta : List Int) (idx : Nat) : emit_state :=
  emit_loop (decide (0 < I)) now (wrap8 (idx : Int)) cfg.io_channels 0
    { delta := after_purge I cfg d now delta, prev := after_purge I cfg d now d.prev,
      last_rpt_time := d.last_rpt_time, events := [] }

/-- Lines 106-161, entered once the sampling loop has stored `delta`. -/
def report_phase (I : Nat) (cfg : analog_input_config) (d : analog_input_data)
    (now : Int) (delta : List Int) : tick_output :=
  let d1 : analog_input_data :=
    { d with delta := after_purge I cfg d now delta, prev := after_purge I cfg d now d.prev,
             last_smp_time := if 0 < I then now else d.last_smp_time }
  if suppress_due I d now then
    { data := d1, events := [], ret := call_end.returned 0 }
  else if d.actived = false then
    { data := d1, events := [], ret := call_end.returned 0 }
  else
    match sync_scan cfg.io_channels_len d1.delta d1.prev with
    | scan_result.out_of_bounds i => { data := d1, events := [], ret := call_end.out_of_bounds i }
    | scan_result.spins => { data := d1, events := [], ret := call_end.spins }
    | scan_result.found idx =>
      { data := { d1 with delta := (emit_phase I cfg d now delta idx).delta,
                          prev := (emit_phase I cfg d now delta idx).prev,
                          last_rpt_time := (emit_phase I cfg d now delta idx).last_rpt_time }
        events := (emit_phase I cfg d now delta idx).events
        ret := call_end.returned 0 }

/-- One call of `analog_input_report_data` with minimum report interval
`I = CONFIG_ANALOG_INPUT_REPORT_INTERVAL_MIN`.  The acquisition is attempted
in the first iteration of the sampling loop only, so not at all with zero
channels. -/
def analog_input_report_data (I : Nat) (cfg : analog_input_config) (d : analog_input_data)
    (inp : tick_input) : tick_output :=
  if d.ready = false then { data := d, events := [], ret := call_end.returned EBUSY_neg }
  else
    match cfg.io_channels with
    | [] => report_phase I cfg d inp.now d.delta
    | _ :: _ =>
      if inp.err < 0 then { data := d, events := [], ret := call_end.returned inp.err }
      else if inp.signaled = false then { data := d, events := [], ret := call_end.returned 0 }
      else report_phase I cfg d inp.now (sample_loop inp.mv cfg.io_channels 0 d.delta)

/-! ## `sampling_work_handler`, lines 169-201 -/

/-- Input of one run of the work handler: the cycle's input and what
`reset_adc_sequence` returns if it is called. -/
structure work_input where
  tick : tick_input
  reset_err : Int

/-- Result of one run of the work handler; `resets` counts the calls of
`reset_adc_sequence`, `completed` is false when the cycle did not return. -/
structure work_output where
  data : analog_input_data
  events : List input_event
  timer : List timer_op
  resets : Nat
  completed : Bool

/-- Lines 173-200: what the handler does with the result `o` of the cycle;
`T = CONFIG_ANALOG_INPUT_ERROR_THRESHOLD`, `reset_err` is what
`reset_adc_sequence` returns if it is called. -/
def handle_result (T : Nat) (o : tick_output) (reset_err : Int) : work_output :=
  match o.ret with
  | call_end.returned err =>
    if err < 0 then
      let ec := (o.data.error_count + 1) % 4294967296
      if ec > T then
        if reset_err < 0 then
          { data := { o.data with error_count := ec, enabled := false }
            events := o.events, timer := [timer_op.k_timer_stop], resets := 1, completed := true }
        else
          { data := { o.data with error_count := 0 }
            events := o.events, timer := [], resets := 1, completed := true }
      else
        { data := { o.data with error_count := ec }
          events := o.events, timer := [], resets := 0, completed := true }
    else
      { data := { o.data with error_count := 0 }
        events := o.events, timer := [], resets := 0, completed := true }
  | _ => { data := o.data, events := o.events, timer := [], resets := 0, completed := false }

/-- One run of `sampling_work_handler`: line 171 calls
`analog_input_report_data`, lines 173-200 handle its result. -/
def sampling_work_handler (I T : Nat) (cfg : analog_input_config) (d : analog_input_data)
    (w : work_input) : work_output :=
  handle_result T (analog_input_report_data I cfg d w.tick) w.reset_err

/-- The test of line 174 on how the cycle ended: it returned a negative
code. -/
def ret_failed : call_end → Prop
  | call_end.returned err => err < 0
  | _ => False

instance (r : call_end) : Decidable (ret_failed r) := by
  cases r <;> unfold ret_failed <;> infer_instance

/-- The cycle fails: `analog_input_report_data` returns a negative code
(line 174). -/
def cycle_failed (I : Nat) (cfg : analog_input_config) (d : analog_input_data)
    (inp : tick_input) : Prop :=
  ret_failed (analog_input_report_data I cfg d inp).ret

instance (I : Nat) (cfg : analog_input_config) (d : analog_input_data) (inp : tick_input) :
    Decidable (cycle_failed I cfg d inp) := by
  unfold cycle_failed
  infer_instance

/-- One run of the work handler with the state it started from. -/
structure work_record where
  pre : analog_input_data
  inp : work_input
  out : work_output

/-- The runs of the work handler over a sequence of inputs, in order; the
sequence ends with the first cycle that does not return. -/
def work_run (I T : Nat) (cfg : analog_input_config) :
    analog_input_data → List work_input → List work_record
  | _, [] => []
  | d, w :: rest =>
    let o := sampling_work_handler I T cfg d w
    { pre := d, inp := w, out := o } ::
      (if o.completed then work_run I T cfg o.data rest else [])

/-! ## Control operations, lines 229-284 -/

/-- Result of a control operation. -/
structure ctl_output where
  data : analog_input_data
  timer : List timer_op
  ret : Int

/-- Lines 229-235. -/
def active_set_value (d : analog_input_data) (active : Bool) : ctl_output :=
  if d.actived = active then { data := d, timer := [], ret := 0 }
  else { data := { d with actived := active }, timer := [], ret := 0 }

/-- Lines 237-253; `hz` is a `uint32_t`. -/
def sample_hz_set_value (d : analog_input_data) (hz : Nat) : ctl_output :=
  if d.ready = false then { data := d, timer := [], ret := EBUSY_neg }
  else if d.enabled then { data := d, timer := [], ret := EBUSY_neg }
  else { data := { d with sampling_hz := hz }, timer := [], ret := 0 }

/-- Lines 255-284. -/
def enable_set_value (d : analog_input_data) (enable : Bool) : ctl_output :=
  if d.ready = false then { data := d, timer := [], ret := EBUSY_neg }
  else if d.enabled = enable then { data := d, timer := [], ret := 0 }
  else if enable then
    if d.sampling_hz ≠ 0 then
      let usec := 1000000 / d.sampling_hz
      { data := { d with enabled := true }
        timer := [timer_op.k_timer_start (k_timeout.K_USEC usec) (k_timeout.K_USEC usec)]
        ret := 0 }
    else
      { data := { d with enabled := true }
        timer := [timer_op.k_timer_start k_timeout.K_NO_WAIT k_timeout.K_NO_WAIT]
        ret := 0 }
  else
    { data := { d with enabled := false }, timer := [timer_op.k_timer_stop], ret := 0 }

/-! ## Runs -/

/-- What can happen to a device: a sampling cycle or a control operation. -/
inductive dev_step where
  | tick (inp : tick_input)
  | set_active (b : Bool)
  | set_hz (hz : Nat)
  | set_enable (b : Bool)

/-- One step; a control operation emits nothing and always returns. -/
def do_step (I : Nat) (cfg : analog_input_config) (d : analog_input_data) :
    dev_step → tick_output
  | dev_step.tick inp => analog_input_report_data I cfg d inp
  | dev_step.set_active b =>
    { data := (active_set_value d b).data, events := []
      ret := call_end.returned (active_set_value d b).ret }
  | dev_step.set_hz hz =>
    { data := (sample_hz_set_value d hz).data, events := []
      ret := call_end.returned (sample_hz_set_value d hz).ret }
  | dev_step.set_enable b =>
    { data := (enable_set_value d b).data, events := []
      ret := call_end.returned (enable_set_value d b).ret }

/-- The results of a sequence of steps, in order; the run ends with the
first step that does not return. -/
def run_steps (I : Nat) (cfg : analog_input_config) :
    analog_input_data → List dev_step → List tick_output
  | _, [] => []
  | d, s :: rest =>
    let o := do_step I cfg d s
    match o.ret with
    | call_end.returned _ => o :: run_steps I cfg o.data rest
    | _ => [o]

/-- One executed step with the state it started from. -/
structure step_record where
  pre : analog_input_data
  step : dev_step
  out : tick_output

/-- The executed steps of a sequence, in order, each with its state before
and its result; the run ends with the first step that does not return. -/
def run_records (I : Nat) (cfg : analog_input_config) :
    analog_input_data → List dev_step → List step_record
  | _, [] => []
  | d, s :: rest =>
    let o := do_step I cfg d s
    { pre := d, step := s, out := o } ::
      (match o.ret with
       | call_end.returned _ => run_records I cfg o.data rest
       | _ => [])

/-- The clock readings `k_uptime_get()` of the sampling cycles of a sequence
of steps, in order. -/
def tick_times : List dev_step → List Int
  | [] => []
  | dev_step.tick inp :: rest => inp.now :: tick_times rest
  | dev_step.set_active _ :: rest => tick_times rest
  | dev_step.set_hz _ :: rest => tick_times rest
  | dev_step.set_enable _ :: rest => tick_times rest

/-- Every two consecutive cycles are at least `I` apart. -/
def spaced_by (I : Nat) (times : List Int) : Prop :=
  List.Chain' (fun a b => a + (I : Int) ≤ b) times

/-- The clock starts at 0 or later and never goes back. -/
def clock_non_decreasing (times : List Int) : Prop :=
  List.Chain (fun a b => a ≤ b) 0 times

/-- The state a sequence of steps leaves. -/
def after_steps (I : Nat) (cfg : analog_input_config) :
    analog_input_data → List dev_step → analog_input_data
  | d, [] => d
  | d, s :: rest => after_steps I cfg (do_step I cfg d s).data rest

/-- The runtime arrays as construction leaves them: one zero slot per channel
in `delta` and in `prev`. -/
def zero_initialised (cfg : analog_input_config) (d : analog_input_data) : Prop :=
  d.delta = List.replicate cfg.io_channels_len 0 ∧
  d.prev = List.replicate cfg.io_channels_len 0

/-- The arrays `delta` and `prev` have one slot per channel. -/
def well_formed (cfg : analog_input_config) (d : analog_input_data) : Prop :=
  d.delta.length = cfg.io_channels_len ∧ d.prev.length = cfg.io_channels_len

/-- States a device can be in: at most 255 channels (the channel index is a
`uint8_t`), zero-initialised arrays, then any sequence of returning steps. -/
inductive reachable (I : Nat) (cfg : analog_input_config) : analog_input_data → Prop where
  | init (d : analog_input_data) (hlen : cfg.io_channels_len ≤ 255)
      (h : zero_initialised cfg d) : reachable I cfg d
  | step (d : analog_input_data) (s : dev_step) (code : Int) (h : reachable I cfg d)
      (hret : (do_step I cfg d s).ret = call_end.returned code) :
      reachable I cfg (do_step I cfg d s).data

/-- A device before initialisation has completed: every flag clear, one zero
slot per channel. -/
def fresh_data (n : Nat) : analog_input_data :=
  { ready := false, actived := false, enabled := false, sampling_hz := 0, error_count := 0,
    last_successful_read := 0, delta := List.replicate n 0, prev := List.replicate n 0,
    last_smp_time := 0, last_rpt_time := 0 }

/-- Channel `k` is reportable (lines 135 and 146): `delta[k] != prev[k]`. -/
def reportable (delta prev : List Int) (k : Nat) : Prop :=
  delta.getD k 0 ≠ prev.getD k 0

instance (delta prev : List Int) (k : Nat) : Decidable (reportable delta prev k) := by
  unfold reportable; infer_instance

/-- Every accumulate-mode channel has `prev[i] == 0`. -/
def acc_prev_zero (cfg : analog_input_config) (d : analog_input_data) : Prop :=
  ∀ i ch, cfg.io_channels[i]? = some ch → ch.report_on_change_only = false →
    d.prev.getD i 0 = 0

/-- The profile of the spec's scenario (section 8): on-change mode, midpoint
1650, deadzone 50, clamp 1000, no inversion, scale 1/1. -/
def scenario_profile : analog_input_io_channel :=
  { mv_mid := 1650, mv_deadzone := 50, mv_min_max := 1000, invert := false,
    scale_multiplier := 1, scale_divisor := 1, report_on_change_only := true,
    evt_type := 2, input_code := 0 }

/-- The scenario profile in accumulate mode. -/
def accumulate_profile : analog_input_io_channel :=
  { scenario_profile with report_on_change_only := false }

/-- A ready, active, enabled device with `n` zero-initialised channels. -/
def ready_data (n : Nat) : analog_input_data :=
  { fresh_data n with ready := true, actived := true, enabled := true }

/-- A cycle at time `now` whose acquisition succeeds with readings `mv`. -/
def good_tick (now : Int) (mv : Nat → Int) : tick_input :=
  { now := now, err := 0, signaled := true, mv := mv }

/-- A cycle whose acquisition fails with -5 and whose reset request, if one
is made, fails with -5. -/
def failing_work : work_input :=
  { tick := { now := 0, err := -5, signaled := true, mv := fun _ => 0 }, reset_err := -5 }

/-- A cycle whose acquisition fails with -5 and whose reset request, if one
is made, succeeds. -/
def failing_work_reset_ok : work_input :=
  { tick := { now := 0, err := -5, signaled := true, mv := fun _ => 0 }, reset_err := 0 }

/-- The profile with which an already-conditioned value is conditioned again:
no midpoint offset, `mv_deadzone = 0`, and the clamp, inversion and scale
of `p`. -/
def reapply_profile (p : analog_input_io_channel) : analog_input_io_channel :=
  { p with mv_mid := 0, mv_deadzone := 0 }

/-- An accumulate channel 0 next to an on-change channel 1. -/
def two_channels : analog_input_config :=
  ⟨[accumulate_profile, scenario_profile]⟩

/-- The events of a result that belong to channel `i`. -/
def events_of (i : Nat) (evs : List input_event) : List input_event :=
  evs.filter (fun e => e.channel = i)

/-! ## Lemmas on the wraps -/

theorem wrap16_of_fits {x : Int} (h : fits16 x) : wrap16 x = x := by
  unfold fits16 at h
  unfold wrap16
  omega

theorem wrap32_of_fits {x : Int} (h : fits32 x) : wrap32 x = x := by
  unfold fits32 at h
  unfold wrap32
  omega

theorem spec_deadzone_fits (p : analog_input_io_channel) {v : Int} (h : fits16 v) :
    fits16 (spec_deadzone p v) := by
  unfold fits16 at *
  unfold spec_deadzone
  split_ifs <;> omega

theorem spec_clamp_fits (p : analog_input_io_channel) {v : Int} (h : fits16 v) :
    fits16 (spec_clamp p v) := by
  unfold fits16 at *
  unfold spec_clamp
  split_ifs <;> omega

theorem cond_deadzone_eq_spec (p : analog_input_io_channel) {v : Int}
    (hd : p.mv_deadzone ≤ 32767) (h : fits16 v) :
    cond_deadzone p v = spec_deadzone p v := by
  have hdz : wrap16 (p.mv_deadzone : Int) = (p.mv_deadzone : Int) :=
    wrap16_of_fits ⟨by omega, by omega⟩
  unfold fits16 at h
  unfold cond_deadzone spec_deadzone
  simp only [hdz]
  by_cases h0 : p.mv_deadzone = 0
  · simp [h0]
  · have hpos : p.mv_deadzone > 0 := Nat.pos_of_ne_zero h0
    have hne : (p.mv_deadzone : Int) ≠ 0 := by omega
    simp only [hne, hpos, ne_eq, not_false_eq_true, if_true]
    by_cases hv : v > 0
    · simp only [hv, if_true]
      by_cases hlt : v < (p.mv_deadzone : Int)
      · simp [hlt]
      · simp only [hlt, if_false]
        have : wrap16 (v - p.mv_deadzone) = v - p.mv_deadzone :=
          wrap16_of_fits ⟨by omega, by omega⟩
        rw [this]
        have : ¬ (v - (p.mv_deadzone : Int) < 0) := by omega
        simp [this]
    · simp only [hv, if_false]
      by_cases hn : v < 0
      · simp only [hn, if_true]
        by_cases hgt : v > -(p.mv_deadzone : Int)
        · have : -v < (p.mv_deadzone : Int) := by omega
          simp [hgt, this]
        · have h2 : ¬ (-v < (p.mv_deadzone : Int)) := by omega
          simp only [hgt, h2, if_false]
          exact wrap16_of_fits ⟨by omega, by omega⟩
      · simp [hn]

theorem cond_clamp_eq_spec (p : analog_input_io_channel) {v : Int} (h : fits16 v) :
    cond_clamp p v = spec_clamp p v := by
  unfold fits16 at h
  unfold cond_clamp spec_clamp
  by_cases h0 : p.mv_min_max = 0
  · simp [h0]
  · have hpos : p.mv_min_max > 0 := Nat.pos_of_ne_zero h0
    have hne : (p.mv_min_max : Int) ≠ 0 := by omega
    simp only [hne, hpos, ne_eq, not_false_eq_true, if_true]
    by_cases hv : v > 0 ∧ v > (p.mv_min_max : Int)
    · have hw : wrap16 (p.mv_min_max : Int) = (p.mv_min_max : Int) :=
        wrap16_of_fits ⟨by omega, by omega⟩
      simp only [hv, and_self, if_true, hw]
      have : ¬ ((p.mv_min_max : Int) < 0 ∧ (p.mv_min_max : Int) < -(p.mv_min_max : Int)) := by omega
      simp only [this, if_false]
      omega
    · simp only [hv, if_false]
      by_cases hn : v < 0 ∧ v < -(p.mv_min_max : Int)
      · have hw : wrap16 (-(p.mv_min_max : Int)) = -(p.mv_min_max : Int) :=
          wrap16_of_fits ⟨by omega, by omega⟩
        simp only [hn, and_self, if_true, hw]
        omega
      · simp only [hn, if_false]
        omega

theorem conditioned_at_mid (p : analog_input_io_channel) : conditioned p p.mv_mid = 0 := by
  have h0 : cond_offset p p.mv_mid = 0 := by simp [cond_offset, wrap16]
  have h1 : cond_deadzone p 0 = 0 := by simp [cond_deadzone]
  have h2 : cond_clamp p 0 = 0 := by simp [cond_clamp]
  have h3 : cond_invert p 0 = 0 := by
    unfold cond_invert
    split_ifs <;> simp [wrap16]
  have h4 : cond_rescale p 0 = 0 := by simp [cond_rescale, wrap16, wrap32]
  unfold conditioned
  rw [h0, h1, h2, h3, h4]

/-! ## Lemmas on the arrays -/

theorem getD_set_eq (l : List Int) (i : Nat) (a : Int) (h : i < l.length) :
    (l.set i a).getD i 0 = a := by
  simp [List.getD_eq_getElem?_getD, List.getElem?_set, h]

theorem getD_set_ne (l : List Int) {i j : Nat} (a : Int) (h : i ≠ j) :
    (l.set i a).getD j 0 = l.getD j 0 := by
  simp [List.getD_eq_getElem?_getD, List.getElem?_set, h]

theorem getD_replicate_zero (n k : Nat) : (List.replicate n (0 : Int)).getD k 0 = 0 := by
  simp only [List.getD_eq_getElem?_getD, List.getElem?_replicate]
  split_ifs <;> simp

theorem getElem?_of_getD_ne {l : List Int} {k : Nat} (h : k < l.length) :
    l[k]? = some (l.getD k 0) := by
  simp [List.getD_eq_getElem?_getD, List.getElem?_eq_getElem h]

/-! ### The sampling loop -/

theorem store_delta_length (ch : analog_input_io_channel) (v : Int) (i : Nat)
    (delta : List Int) : (store_delta ch v i delta).length = delta.length := by
  unfold store_delta
  split_ifs <;> simp

theorem store_delta_ne (ch : analog_input_io_channel) (v : Int) {i k : Nat}
    (delta : List Int) (h : i ≠ k) : (store_delta ch v i delta).getD k 0 = delta.getD k 0 := by
  unfold store_delta
  split_ifs <;> exact getD_set_ne _ _ h

theorem store_delta_eq (ch : analog_input_io_channel) (v : Int) (i : Nat)
    (delta : List Int) (h : i < delta.length) :
    (store_delta ch v i delta).getD i 0 =
      if ch.report_on_change_only then v else wrap32 (delta.getD i 0 + v) := by
  unfold store_delta
  split_ifs <;> exact getD_set_eq _ _ _ h

theorem sample_loop_length (mv : Nat → Int) (chs : List analog_input_io_channel) :
    ∀ (i0 : Nat) (delta : List Int), (sample_loop mv chs i0 delta).length = delta.length := by
  induction chs with
  | nil => intro i0 delta; rfl
  | cons ch rest ih =>
    intro i0 delta
    simp only [sample_loop]
    rw [ih, store_delta_length]

theorem sample_loop_lt (mv : Nat → Int) (chs : List analog_input_io_channel) :
    ∀ (i0 : Nat) (delta : List Int) (k : Nat), k < i0 →
      (sample_loop mv chs i0 delta).getD k 0 = delta.getD k 0 := by
  induction chs with
  | nil => intro i0 delta k _; rfl
  | cons ch rest ih =>
    intro i0 delta k hk
    simp only [sample_loop]
    rw [ih (i0 + 1) _ k (by omega), store_delta_ne _ _ _ (by omega)]

theorem sample_loop_at (mv : Nat → Int) (chs : List analog_input_io_channel) :
    ∀ (i0 : Nat) (delta : List Int) (j : Nat) (ch : analog_input_io_channel),
      chs[j]? = some ch → i0 + j < delta.length →
      (sample_loop mv chs i0 delta).getD (i0 + j) 0 =
        if ch.report_on_change_only then conditioned ch (mv (i0 + j))
        else wrap32 (delta.getD (i0 + j) 0 + conditioned ch (mv (i0 + j))) := by
  induction chs with
  | nil => intro i0 delta j ch h; simp at h
  | cons c rest ih =>
    intro i0 delta j ch h hlen
    simp only [sample_loop]
    cases j with
    | zero =>
      simp only [List.getElem?_cons_zero, Option.some.injEq] at h
      subst h
      simp only [Nat.add_zero] at hlen ⊢
      rw [sample_loop_lt mv rest (i0 + 1) _ i0 (by omega), store_delta_eq _ _ _ _ hlen]
    | succ j =>
      simp only [List.getElem?_cons_succ] at h
      have e : i0 + (j + 1) = (i0 + 1) + j := by omega
      rw [e] at hlen ⊢
      rw [ih (i0 + 1) _ j ch h (by rw [store_delta_length]; exact hlen),
        store_delta_ne _ _ _ (by omega)]

/-! ### The purge loop -/

theorem purge_loop_length : ∀ (n : Nat) (xs : List Int), (purge_loop n xs).length = xs.length
  | 0, _ => rfl
  | n + 1, xs => by simp [purge_loop, purge_loop_length n xs]

theorem purge_loop_lt : ∀ (n : Nat) (xs : List Int) (k : Nat), k < n →
    (purge_loop n xs).getD k 0 = 0
  | 0, _, _, h => by omega
  | n + 1, xs, k, h => by
    simp only [purge_loop]
    by_cases hk : n = k
    · subst hk
      simp only [List.getD_eq_getElem?_getD, List.getElem?_set]
      split_ifs <;> simp
    · rw [getD_set_ne _ _ hk]
      exact purge_loop_lt n xs k (by omega)

/-! ### The emission loop -/

theorem emit_one_delta_length (rpt : Bool) (now idx : Int) (ch : analog_input_io_channel)
    (i : Nat) (dv : Int) (st : emit_state) :
    (emit_one rpt now idx ch i dv st).delta.length = st.delta.length := by
  simp [emit_one]

theorem emit_one_prev_length (rpt : Bool) (now idx : Int) (ch : analog_input_io_channel)
    (i : Nat) (dv : Int) (st : emit_state) :
    (emit_one rpt now idx ch i dv st).prev.length = st.prev.length := by
  unfold emit_one
  by_cases h : ch.report_on_change_only = true <;> simp [h]

theorem emit_one_delta_ne (rpt : Bool) (now idx : Int) (ch : analog_input_io_channel)
    {i k : Nat} (dv : Int) (st : emit_state) (h : i ≠ k) :
    (emit_one rpt now idx ch i dv st).delta.getD k 0 = st.delta.getD k 0 := by
  simp only [emit_one]
  exact getD_set_ne _ _ h

theorem emit_one_prev_ne (rpt : Bool) (now idx : Int) (ch : analog_input_io_channel)
    {i k : Nat} (dv : Int) (st : emit_state) (h : i ≠ k) :
    (emit_one rpt now idx ch i dv st).prev.getD k 0 = st.prev.getD k 0 := by
  simp only [emit_one]
  by_cases hc : ch.report_on_change_only = true
  · rw [if_pos hc]
    exact getD_set_ne _ _ h
  · rw [if_neg hc]

theorem emit_one_delta_eq (rpt : Bool) (now idx : Int) (ch : analog_input_io_channel)
    (i : Nat) (dv : Int) (st : emit_state) (h : i < st.delta.length) :
    (emit_one rpt now idx ch i dv st).delta.getD i 0 = 0 := by
  simp only [emit_one]
  exact getD_set_eq _ _ _ h

theorem emit_one_prev_eq (rpt : Bool) (now idx : Int) (ch : analog_input_io_channel)
    (i : Nat) (dv : Int) (st : emit_state) (h : i < st.prev.length) :
    (emit_one rpt now idx ch i dv st).prev.getD i 0 =
      if ch.report_on_change_only = true then dv else st.prev.getD i 0 := by
  simp only [emit_one]
  by_cases hc : ch.report_on_change_only = true
  · rw [if_pos hc, if_pos hc]
    exact getD_set_eq _ _ _ h
  · rw [if_neg hc, if_neg hc]

theorem emit_one_events (rpt : Bool) (now idx : Int) (ch : analog_input_io_channel)
    (i : Nat) (dv : Int) (st : emit_state) :
    (emit_one rpt now idx ch i dv st).events = st.events ++ [event_for ch i dv idx] := rfl

theorem emit_loop_length (rpt : Bool) (now idx : Int) (chs : List analog_input_io_channel) :
    ∀ (i0 : Nat) (st : emit_state),
      (emit_loop rpt now idx chs i0 st).delta.length = st.delta.length ∧
      (emit_loop rpt now idx chs i0 st).prev.length = st.prev.length := by
  induction chs with
  | nil => intro i0 st; exact ⟨rfl, rfl⟩
  | cons ch rest ih =>
    intro i0 st
    simp only [emit_loop]
    split_ifs with h1
    · rw [(ih (i0 + 1) _).1, (ih (i0 + 1) _).2, emit_one_delta_length, emit_one_prev_length]
      exact ⟨rfl, rfl⟩
    · exact ih (i0 + 1) st

theorem emit_loop_lt (rpt : Bool) (now idx : Int) (chs : List analog_input_io_channel) :
    ∀ (i0 : Nat) (st : emit_state) (k : Nat), k < i0 →
      (emit_loop rpt now idx chs i0 st).delta.getD k 0 = st.delta.getD k 0 ∧
      (emit_loop rpt now idx chs i0 st).prev.getD k 0 = st.prev.getD k 0 := by
  induction chs with
  | nil => intro i0 st k _; exact ⟨rfl, rfl⟩
  | cons ch rest ih =>
    intro i0 st k hk
    have hne : i0 ≠ k := by omega
    simp only [emit_loop]
    split_ifs with h1
    · obtain ⟨a, b⟩ := ih (i0 + 1) (emit_one rpt now idx ch i0 (st.delta.getD i0 0) st) k
        (by omega)
      rw [a, b, emit_one_delta_ne _ _ _ _ _ _ hne, emit_one_prev_ne _ _ _ _ _ _ hne]
      exact ⟨rfl, rfl⟩
    · exact ih (i0 + 1) st k (by omega)

theorem emit_loop_at (rpt : Bool) (now idx : Int) (chs : List analog_input_io_channel) :
    ∀ (i0 : Nat) (st : emit_state) (j : Nat) (ch : analog_input_io_channel),
      chs[j]? = some ch → i0 + j < st.delta.length → i0 + j < st.prev.length →
      (emit_loop rpt now idx chs i0 st).delta.getD (i0 + j) 0 =
        (if reportable st.delta st.prev (i0 + j) then 0 else st.delta.getD (i0 + j) 0) ∧
      (emit_loop rpt now idx chs i0 st).prev.getD (i0 + j) 0 =
        (if reportable st.delta st.prev (i0 + j) ∧ ch.report_on_change_only = true
          then st.delta.getD (i0 + j) 0 else st.prev.getD (i0 + j) 0) := by
  induction chs with
  | nil => intro i0 st j ch h; simp at h
  | cons c rest ih =>
    intro i0 st j ch h hd hp
    cases j with
    | zero =>
      simp only [List.getElem?_cons_zero, Option.some.injEq] at h
      subst h
      simp only [Nat.add_zero] at hd hp ⊢
      simp only [emit_loop, reportable]
      by_cases h1 : st.delta.getD i0 0 ≠ st.prev.getD i0 0
      · obtain ⟨a, b⟩ := emit_loop_lt rpt now idx rest (i0 + 1)
          (emit_one rpt now idx c i0 (st.delta.getD i0 0) st) i0 (by omega)
        rw [if_pos h1, a, b, emit_one_delta_eq _ _ _ _ _ _ _ hd,
          emit_one_prev_eq _ _ _ _ _ _ _ hp, if_pos h1]
        refine ⟨rfl, ?_⟩
        by_cases hc : c.report_on_change_only = true
        · rw [if_pos hc, if_pos ⟨h1, hc⟩]
        · rw [if_neg hc, if_neg (fun h => hc h.2)]
      · obtain ⟨a, b⟩ := emit_loop_lt rpt now idx rest (i0 + 1) st i0 (by omega)
        rw [if_neg h1, a, b, if_neg h1, if_neg (fun h => h1 h.1)]
        exact ⟨rfl, rfl⟩
    | succ j =>
      simp only [List.getElem?_cons_succ] at h
      have e : i0 + (j + 1) = (i0 + 1) + j := by omega
      have hne : i0 ≠ i0 + 1 + j := by omega
      rw [e] at hd hp ⊢
      simp only [emit_loop]
      by_cases h1 : st.delta.getD i0 0 ≠ st.prev.getD i0 0
      · rw [if_pos h1]
        have := ih (i0 + 1) (emit_one rpt now idx c i0 (st.delta.getD i0 0) st) j ch h
          (by rw [emit_one_delta_length]; exact hd) (by rw [emit_one_prev_length]; exact hp)
        simp only [reportable, emit_one_delta_ne _ _ _ _ _ _ hne,
          emit_one_prev_ne _ _ _ _ _ _ hne] at this ⊢
        exact this
      · rw [if_neg h1]
        exact ih (i0 + 1) st j ch h hd hp

theorem emit_loop_events (rpt : Bool) (now idx : Int) (chs : List analog_input_io_channel) :
    ∀ (i0 : Nat) (st : emit_state) (e : input_event),
      e ∈ (emit_loop rpt now idx chs i0 st).events ↔
        e ∈ st.events ∨ ∃ j ch, chs[j]? = some ch ∧ reportable st.delta st.prev (i0 + j) ∧
          e = event_for ch (i0 + j) (st.delta.getD (i0 + j) 0) idx := by
  induction chs with
  | nil => intro i0 st e; simp [emit_loop]
  | cons c rest ih =>
    intro i0 st e
    have shift : ∀ (Q : Nat → analog_input_io_channel → Prop),
        (∃ j ch, (c :: rest)[j]? = some ch ∧ Q (i0 + j) ch) ↔
          Q i0 c ∨ ∃ j ch, rest[j]? = some ch ∧ Q (i0 + 1 + j) ch := by
      intro Q
      constructor
      · rintro ⟨j, ch, h, hQ⟩
        cases j with
        | zero =>
          simp only [List.getElem?_cons_zero, Option.some.injEq] at h
          subst h
          exact Or.inl hQ
        | succ j =>
          simp only [List.getElem?_cons_succ] at h
          have e : i0 + (j + 1) = i0 + 1 + j := by omega
          rw [e] at hQ
          exact Or.inr ⟨j, ch, h, hQ⟩
      · rintro (hQ | ⟨j, ch, h, hQ⟩)
        · exact ⟨0, c, by simp, hQ⟩
        · have e : i0 + 1 + j = i0 + (j + 1) := by omega
          rw [e] at hQ
          exact ⟨j + 1, ch, by simpa using h, hQ⟩
    rw [shift (fun k ch => reportable st.delta st.prev k ∧
      e = event_for ch k (st.delta.getD k 0) idx)]
    have hne : ∀ j, i0 ≠ i0 + 1 + j := fun j => by omega
    simp only [emit_loop]
    by_cases h1 : st.delta.getD i0 0 ≠ st.prev.getD i0 0
    · rw [if_pos h1, ih]
      simp only [reportable, emit_one_delta_ne _ _ _ _ _ _ (hne _),
        emit_one_prev_ne _ _ _ _ _ _ (hne _), emit_one_events, List.mem_append,
        List.mem_singleton]
      tauto
    · rw [if_neg h1, ih]
      simp only [reportable]
      tauto

/-! ### The sync scan -/

theorem scan_probe_in_bounds (delta prev : List Int) (i : Nat) (next : scan_result)
    (hd : i < delta.length) (hp : i < prev.length) :
    scan_probe delta prev i next =
      if reportable delta prev i then scan_result.found i else next := by
  unfold scan_probe reportable
  rw [getElem?_of_getD_ne hd, getElem?_of_getD_ne hp]

theorem scan_down_none (delta prev : List Int) (w : scan_result) :
    ∀ n, n < delta.length → n < prev.length → (∀ k, k ≤ n → ¬ reportable delta prev k) →
      scan_down delta prev w n = w := by
  intro n
  induction n with
  | zero =>
    intro hd hp h
    simp only [scan_down]
    rw [scan_probe_in_bounds _ _ _ _ hd hp, if_neg (h 0 (Nat.le_refl 0))]
  | succ n ih =>
    intro hd hp h
    simp only [scan_down]
    rw [scan_probe_in_bounds _ _ _ _ hd hp, if_neg (h (n + 1) (Nat.le_refl _))]
    exact ih (by omega) (by omega) (fun k hk => h k (by omega))

theorem scan_down_found (delta prev : List Int) (w : scan_result) :
    ∀ n, n < delta.length → n < prev.length → (∃ k, k ≤ n ∧ reportable delta prev k) →
      ∃ j, j ≤ n ∧ scan_down delta prev w n = scan_result.found j ∧
        reportable delta prev j ∧ ∀ m, j < m → m ≤ n → ¬ reportable delta prev m := by
  intro n
  induction n with
  | zero =>
    intro hd hp ⟨k, hk, hr⟩
    have : k = 0 := by omega
    subst this
    refine ⟨0, Nat.le_refl 0, ?_, hr, fun m h1 h2 => by omega⟩
    simp only [scan_down]
    rw [scan_probe_in_bounds _ _ _ _ hd hp, if_pos hr]
  | succ n ih =>
    intro hd hp ⟨k, hk, hr⟩
    simp only [scan_down]
    rw [scan_probe_in_bounds _ _ _ _ hd hp]
    by_cases htop : reportable delta prev (n + 1)
    · exact ⟨n + 1, Nat.le_refl _, by rw [if_pos htop], htop, fun m h1 h2 => by omega⟩
    · rw [if_neg htop]
      have hk' : k ≤ n := by
        rcases Nat.lt_or_ge n k with h | h
        · have : k = n + 1 := by omega
          subst this
          exact absurd hr htop
        · exact h
      obtain ⟨j, hj, hs, hrj, hmax⟩ := ih (by omega) (by omega) ⟨k, hk', hr⟩
      refine ⟨j, by omega, hs, hrj, fun m h1 h2 => ?_⟩
      rcases Nat.lt_or_ge n m with h | h
      · have : m = n + 1 := by omega
        subst this
        exact htop
      · exact hmax m h1 h

theorem sync_scan_found (len : Nat) (delta prev : List Int) (hlen : len ≤ 255)
    (hd : delta.length = len) (hp : prev.length = len)
    (h : ∃ k, k < len ∧ reportable delta prev k) :
    ∃ j, j < len ∧ sync_scan len delta prev = scan_result.found j ∧
      reportable delta prev j ∧ ∀ m, j < m → m < len → ¬ reportable delta prev m := by
  obtain ⟨k, hk, hr⟩ := h
  have hs : (len + 255) % 256 = len - 1 := by omega
  unfold sync_scan
  rw [hs]
  obtain ⟨j, hj, e, hrj, hmax⟩ := scan_down_found delta prev
    (scan_down delta prev scan_result.spins 255) (len - 1) (by omega) (by omega)
    ⟨k, by omega, hr⟩
  exact ⟨j, by omega, e, hrj, fun m h1 h2 => hmax m h1 (by omega)⟩

/-! ### One call of `analog_input_report_data` -/

theorem after_purge_length (I : Nat) (cfg : analog_input_config) (d : analog_input_data)
    (now : Int) (xs : List Int) : (after_purge I cfg d now xs).length = xs.length := by
  unfold after_purge
  split_ifs
  · exact purge_loop_length _ _
  · rfl

/-- The two shapes of the result of lines 106-161: nothing is emitted and the
arrays are as the purge left them, or the scan found a sync index and the
emission loop ran. -/
theorem report_phase_cases (I : Nat) (cfg : analog_input_config) (d : analog_input_data)
    (now : Int) (delta : List Int) :
    ((report_phase I cfg d now delta).events = [] ∧
      (report_phase I cfg d now delta).data.delta = after_purge I cfg d now delta ∧
      (report_phase I cfg d now delta).data.prev = after_purge I cfg d now d.prev) ∨
    (∃ idx, ¬ suppress_due I d now ∧ d.actived = true ∧
      sync_scan cfg.io_channels_len (after_purge I cfg d now delta)
        (after_purge I cfg d now d.prev) = scan_result.found idx ∧
      (report_phase I cfg d now delta).ret = call_end.returned 0 ∧
      (report_phase I cfg d now delta).events = (emit_phase I cfg d now delta idx).events ∧
      (report_phase I cfg d now delta).data.delta = (emit_phase I cfg d now delta idx).delta ∧
      (report_phase I cfg d now delta).data.prev = (emit_phase I cfg d now delta idx).prev) := by
  unfold report_phase
  by_cases hs : suppress_due I d now
  · left
    simp [hs]
  · by_cases ha : d.actived = false
    · left
      simp [hs, ha]
    · simp only [if_neg hs, if_neg ha]
      cases hscan : sync_scan cfg.io_channels_len (after_purge I cfg d now delta)
          (after_purge I cfg d now d.prev) with
      | found idx =>
        right
        exact ⟨idx, hs, by simpa using ha, rfl, rfl, rfl, rfl, rfl⟩
      | out_of_bounds i => left; exact ⟨rfl, rfl, rfl⟩
      | spins => left; exact ⟨rfl, rfl, rfl⟩

/-- The two shapes of the result of a whole call: the call ends before the
sampling loop stores anything (not ready, acquisition error, unsignalled
poll), or it reaches lines 106-161 with the sampled `delta`. -/
theorem tick_cases (I : Nat) (cfg : analog_input_config) (d : analog_input_data)
    (inp : tick_input) :
    ((analog_input_report_data I cfg d inp).events = [] ∧
      (analog_input_report_data I cfg d inp).data = d) ∨
    (d.ready = true ∧ (cfg.io_channels = [] ∨ (¬ inp.err < 0 ∧ inp.signaled = true)) ∧
      analog_input_report_data I cfg d inp =
        report_phase I cfg d inp.now (sample_loop inp.mv cfg.io_channels 0 d.delta)) := by
  unfold analog_input_report_data
  by_cases hr : d.ready = false
  · left
    simp [hr]
  · have hr' : d.ready = true := by simpa using hr
    rw [if_neg hr]
    cases hc : cfg.io_channels with
    | nil =>
      right
      exact ⟨hr', Or.inl rfl, by simp [sample_loop]⟩
    | cons c rest =>
      simp only
      by_cases he : inp.err < 0
      · left
        simp [he]
      · by_cases hsig : inp.signaled = false
        · left
          simp [he, hsig]
        · right
          refine ⟨hr', Or.inr ⟨he, by simpa using hsig⟩, ?_⟩
          simp [he, hsig]

theorem after_purge_getD (I : Nat) (cfg : analog_input_config) (d : analog_input_data)
    (now : Int) (xs : List Int) (k : Nat) (hk : k < cfg.io_channels_len) :
    (after_purge I cfg d now xs).getD k 0 = if purge_due I d now then 0 else xs.getD k 0 := by
  unfold after_purge
  split_ifs
  · exact purge_loop_lt _ _ _ hk
  · rfl

theorem channel_index_lt {cfg : analog_input_config} {i : Nat} {ch : analog_input_io_channel}
    (h : cfg.io_channels[i]? = some ch) : i < cfg.io_channels_len := by
  obtain ⟨hlt, _⟩ := List.getElem?_eq_some.mp h
  exact hlt

/-- The arrays of the emission loop at channel `i`, as one tick enters it. -/
theorem emit_phase_at (I : Nat) (cfg : analog_input_config) (d : analog_input_data)
    (now : Int) (delta : List Int) (idx i : Nat) (ch : analog_input_io_channel)
    (hch : cfg.io_channels[i]? = some ch)
    (hd : delta.length = cfg.io_channels_len) (hp : d.prev.length = cfg.io_channels_len) :
    (emit_phase I cfg d now delta idx).delta.getD i 0 =
      (if reportable (after_purge I cfg d now delta) (after_purge I cfg d now d.prev) i
        then 0 else (after_purge I cfg d now delta).getD i 0) ∧
    (emit_phase I cfg d now delta idx).prev.getD i 0 =
      (if reportable (after_purge I cfg d now delta) (after_purge I cfg d now d.prev) i ∧
          ch.report_on_change_only = true
        then (after_purge I cfg d now delta).getD i 0
        else (after_purge I cfg d now d.prev).getD i 0) := by
  have hi := channel_index_lt hch
  have := emit_loop_at (decide (0 < I)) now (wrap8 (idx : Int)) cfg.io_channels 0
    { delta := after_purge I cfg d now delta, prev := after_purge I cfg d now d.prev,
      last_rpt_time := d.last_rpt_time, events := [] } i ch hch
    (by simp only [Nat.zero_add, after_purge_length]; omega)
    (by simp only [Nat.zero_add, after_purge_length]; omega)
  simp only [Nat.zero_add] at this
  exact this

/-- The events of the emission loop, as one tick enters it. -/
theorem emit_phase_events (I : Nat) (cfg : analog_input_config) (d : analog_input_data)
    (now : Int) (delta : List Int) (idx : Nat) (e : input_event) :
    e ∈ (emit_phase I cfg d now delta idx).events ↔
      ∃ j ch, cfg.io_channels[j]? = some ch ∧
        reportable (after_purge I cfg d now delta) (after_purge I cfg d now d.prev) j ∧
        e = event_for ch j ((after_purge I cfg d now delta).getD j 0) (wrap8 (idx : Int)) := by
  have := emit_loop_events (decide (0 < I)) now (wrap8 (idx : Int)) cfg.io_channels 0
    { delta := after_purge I cfg d now delta, prev := after_purge I cfg d now d.prev,
      last_rpt_time := d.last_rpt_time, events := [] } e
  simp only [Nat.zero_add, List.not_mem_nil, false_or] at this
  exact this

theorem report_phase_well_formed (I : Nat) (cfg : analog_input_config)
    (d : analog_input_data) (now : Int) (delta : List Int)
    (hd : delta.length = cfg.io_channels_len) (hp : d.prev.length = cfg.io_channels_len) :
    well_formed cfg (report_phase I cfg d now delta).data := by
  rcases report_phase_cases I cfg d now delta with ⟨_, e1, e2⟩ | ⟨idx, _, _, _, _, _, e1, e2⟩
  · exact ⟨by rw [e1, after_purge_length, hd], by rw [e2, after_purge_length, hp]⟩
  · refine ⟨?_, ?_⟩
    · rw [e1]
      unfold emit_phase
      rw [(emit_loop_length _ _ _ _ _ _).1]
      simp only [after_purge_length, hd]
    · rw [e2]
      unfold emit_phase
      rw [(emit_loop_length _ _ _ _ _ _).2]
      simp only [after_purge_length, hp]

theorem report_phase_acc_prev_zero (I : Nat) (cfg : analog_input_config)
    (d : analog_input_data) (now : Int) (delta : List Int)
    (hd : delta.length = cfg.io_channels_len) (hp : d.prev.length = cfg.io_channels_len)
    (hz : acc_prev_zero cfg d) :
    acc_prev_zero cfg (report_phase I cfg d now delta).data := by
  intro i ch hch hacc
  have hi := channel_index_lt hch
  have hpz : (after_purge I cfg d now d.prev).getD i 0 = 0 := by
    rw [after_purge_getD _ _ _ _ _ _ hi]
    split_ifs
    · rfl
    · exact hz i ch hch hacc
  rcases report_phase_cases I cfg d now delta with ⟨_, _, e2⟩ | ⟨idx, _, _, _, _, _, _, e2⟩
  · rw [e2]
    exact hpz
  · rw [e2, (emit_phase_at I cfg d now delta idx i ch hch hd hp).2, if_neg, hpz]
    rw [hacc]
    simp

theorem tick_well_formed (I : Nat) (cfg : analog_input_config) (d : analog_input_data)
    (inp : tick_input) (h : well_formed cfg d) :
    well_formed cfg (analog_input_report_data I cfg d inp).data := by
  rcases tick_cases I cfg d inp with ⟨_, e⟩ | ⟨_, _, e⟩
  · rw [e]
    exact h
  · rw [e]
    exact report_phase_well_formed I cfg d inp.now _
      (by rw [sample_loop_length]; exact h.1) h.2

theorem tick_acc_prev_zero (I : Nat) (cfg : analog_input_config) (d : analog_input_data)
    (inp : tick_input) (h : well_formed cfg d) (hz : acc_prev_zero cfg d) :
    acc_prev_zero cfg (analog_input_report_data I cfg d inp).data := by
  rcases tick_cases I cfg d inp with ⟨_, e⟩ | ⟨_, _, e⟩
  · rw [e]
    exact hz
  · rw [e]
    exact report_phase_acc_prev_zero I cfg d inp.now _
      (by rw [sample_loop_length]; exact h.1) h.2 hz

theorem active_set_value_arrays (d : analog_input_data) (b : Bool) :
    (active_set_value d b).data.delta = d.delta ∧ (active_set_value d b).data.prev = d.prev := by
  unfold active_set_value
  split_ifs <;> exact ⟨rfl, rfl⟩

theorem sample_hz_set_value_arrays (d : analog_input_data) (hz : Nat) :
    (sample_hz_set_value d hz).data.delta = d.delta ∧
    (sample_hz_set_value d hz).data.prev = d.prev := by
  unfold sample_hz_set_value
  split_ifs <;> exact ⟨rfl, rfl⟩

theorem enable_set_value_arrays (d : analog_input_data) (b : Bool) :
    (enable_set_value d b).data.delta = d.delta ∧ (enable_set_value d b).data.prev = d.prev := by
  unfold enable_set_value
  split_ifs <;> exact ⟨rfl, rfl⟩

/-- A control operation leaves both arrays as they were and emits nothing. -/
theorem do_step_control (I : Nat) (cfg : analog_input_config) (d : analog_input_data)
    (s : dev_step) (h : ∀ inp, s ≠ dev_step.tick inp) :
    (do_step I cfg d s).data.delta = d.delta ∧ (do_step I cfg d s).data.prev = d.prev ∧
    (do_step I cfg d s).events = [] := by
  cases s with
  | tick inp => exact absurd rfl (h inp)
  | set_active b => exact ⟨(active_set_value_arrays d b).1, (active_set_value_arrays d b).2, rfl⟩
  | set_hz hz =>
    exact ⟨(sample_hz_set_value_arrays d hz).1, (sample_hz_set_value_arrays d hz).2, rfl⟩
  | set_enable b => exact ⟨(enable_set_value_arrays d b).1, (enable_set_value_arrays d b).2, rfl⟩

theorem do_step_invariant (I : Nat) (cfg : analog_input_config) (d : analog_input_data)
    (s : dev_step) (h : well_formed cfg d) (hz : acc_prev_zero cfg d) :
    well_formed cfg (do_step I cfg d s).data ∧ acc_prev_zero cfg (do_step I cfg d s).data := by
  by_cases ht : ∃ inp, s = dev_step.tick inp
  · obtain ⟨inp, rfl⟩ := ht
    exact ⟨tick_well_formed I cfg d inp h, tick_acc_prev_zero I cfg d inp h hz⟩
  · have hc := do_step_control I cfg d s (fun inp e => ht ⟨inp, e⟩)
    refine ⟨⟨by rw [hc.1]; exact h.1, by rw [hc.2.1]; exact h.2⟩, ?_⟩
    intro i ch hch hacc
    rw [hc.2.1]
    exact hz i ch hch hacc

theorem zero_initialised_invariant (cfg : analog_input_config) (d : analog_input_data)
    (h : zero_initialised cfg d) : well_formed cfg d ∧ acc_prev_zero cfg d := by
  refine ⟨⟨by rw [h.1]; simp, by rw [h.2]; simp⟩, ?_⟩
  intro i ch _ _
  rw [h.2]
  exact getD_replicate_zero _ _

theorem reachable_invariant (I : Nat) (cfg : analog_input_config) (d : analog_input_data)
    (h : reachable I cfg d) :
    cfg.io_channels_len ≤ 255 ∧ well_formed cfg d ∧ acc_prev_zero cfg d := by
  induction h with
  | init d hlen h => exact ⟨hlen, zero_initialised_invariant cfg d h⟩
  | step d s code _ _ ih => exact ⟨ih.1, do_step_invariant I cfg d s ih.2.1 ih.2.2⟩

/-- A ready device whose acquisition succeeds reaches lines 106-161. -/
theorem tick_eq_report_phase (I : Nat) (cfg : analog_input_config) (d : analog_input_data)
    (inp : tick_input) (hr : d.ready = true) (he : ¬ inp.err < 0) (hs : inp.signaled = true) :
    analog_input_report_data I cfg d inp =
      report_phase I cfg d inp.now (sample_loop inp.mv cfg.io_channels 0 d.delta) := by
  unfold analog_input_report_data
  have hr' : ¬ d.ready = false := by simp [hr]
  rw [if_neg hr']
  cases hc : cfg.io_channels with
  | nil => simp [sample_loop]
  | cons c rest => simp [he, hs]

/-- Lines 131-161 when the scan has found a sync index. -/
theorem report_phase_found (I : Nat) (cfg : analog_input_config) (d : analog_input_data)
    (now : Int) (delta : List Int) (idx : Nat) (hs : ¬ suppress_due I d now)
    (ha : d.actived = true)
    (hscan : sync_scan cfg.io_channels_len (after_purge I cfg d now delta)
      (after_purge I cfg d now d.prev) = scan_result.found idx) :
    (report_phase I cfg d now delta).ret = call_end.returned 0 ∧
    (report_phase I cfg d now delta).events = (emit_phase I cfg d now delta idx).events ∧
    (report_phase I cfg d now delta).data.delta = (emit_phase I cfg d now delta idx).delta ∧
    (report_phase I cfg d now delta).data.prev = (emit_phase I cfg d now delta idx).prev := by
  have ha' : ¬ d.actived = false := by simp [ha]
  unfold report_phase
  simp only [if_neg hs, if_neg ha', hscan]
  simp

theorem events_of_eq_nil (i : Nat) (evs : List input_event) :
    events_of i evs = [] ↔ ∀ e ∈ evs, e.channel ≠ i := by
  unfold events_of
  rw [List.filter_eq_nil_iff]
  simp

/-- No event for a channel whose stored `delta` equals its `prev`. -/
theorem report_phase_no_event (I : Nat) (cfg : analog_input_config) (d : analog_input_data)
    (now : Int) (delta : List Int) (i : Nat) (ch : analog_input_io_channel)
    (hch : cfg.io_channels[i]? = some ch) (heq : delta.getD i 0 = d.prev.getD i 0) :
    events_of i (report_phase I cfg d now delta).events = [] := by
  have hi := channel_index_lt hch
  rcases report_phase_cases I cfg d now delta with ⟨e0, _, _⟩ | ⟨idx, _, _, _, _, e0, _, _⟩
  · rw [e0]
    rfl
  · rw [e0, events_of_eq_nil]
    intro e he hc
    obtain ⟨j, c, _, hrep, rfl⟩ := (emit_phase_events I cfg d now delta idx e).mp he
    have hji : j = i := hc
    subst hji
    apply hrep
    rw [after_purge_getD _ _ _ _ _ _ hi, after_purge_getD _ _ _ _ _ _ hi, heq]

theorem tick_no_event (I : Nat) (cfg : analog_input_config) (d : analog_input_data)
    (inp : tick_input) (i : Nat) (ch : analog_input_io_channel)
    (hch : cfg.io_channels[i]? = some ch)
    (heq : (sample_loop inp.mv cfg.io_channels 0 d.delta).getD i 0 = d.prev.getD i 0) :
    events_of i (analog_input_report_data I cfg d inp).events = [] := by
  rcases tick_cases I cfg d inp with ⟨e, _⟩ | ⟨_, _, e⟩
  · rw [e]
    rfl
  · rw [e]
    exact report_phase_no_event I cfg d inp.now _ i ch hch heq

/-- What the sampling loop leaves in `delta[i]`. -/
theorem sample_loop_channel (cfg : analog_input_config) (d : analog_input_data)
    (mv : Nat → Int) (i : Nat) (ch : analog_input_io_channel)
    (hch : cfg.io_channels[i]? = some ch) (hd : d.delta.length = cfg.io_channels_len) :
    (sample_loop mv cfg.io_channels 0 d.delta).getD i 0 =
      if ch.report_on_change_only then conditioned ch (mv i)
      else wrap32 (d.delta.getD i 0 + conditioned ch (mv i)) := by
  have hi := channel_index_lt hch
  have := sample_loop_at mv cfg.io_channels 0 d.delta i ch hch (by omega)
  simp only [Nat.zero_add] at this
  exact this

/-- One step from a state with `delta[i] == 0` on an accumulate channel whose
conditioned value is 0 leaves `delta[i] == 0` and emits nothing for `i`. -/
theorem do_step_zero (I : Nat) (cfg : analog_input_config) (d : analog_input_data)
    (s : dev_step) (i : Nat) (ch : analog_input_io_channel)
    (hwf : well_formed cfg d) (hz : acc_prev_zero cfg d)
    (hch : cfg.io_channels[i]? = some ch) (hacc : ch.report_on_change_only = false)
    (hd0 : d.delta.getD i 0 = 0)
    (hv : ∀ inp, s = dev_step.tick inp → conditioned ch (inp.mv i) = 0) :
    (do_step I cfg d s).data.delta.getD i 0 = 0 ∧ events_of i (do_step I cfg d s).events = [] := by
  by_cases ht : ∃ inp, s = dev_step.tick inp
  · obtain ⟨inp, rfl⟩ := ht
    have hi := channel_index_lt hch
    have hs : (sample_loop inp.mv cfg.io_channels 0 d.delta).getD i 0 = 0 := by
      rw [sample_loop_channel cfg d inp.mv i ch hch hwf.1, hacc, hd0, hv inp rfl]
      decide
    have hp : d.prev.getD i 0 = 0 := hz i ch hch hacc
    refine ⟨?_, tick_no_event I cfg d inp i ch hch (by rw [hs, hp])⟩
    show (analog_input_report_data I cfg d inp).data.delta.getD i 0 = 0
    rcases tick_cases I cfg d inp with ⟨_, e⟩ | ⟨_, _, e⟩
    · rw [e]
      exact hd0
    · rw [e]
      have hap : (after_purge I cfg d inp.now
          (sample_loop inp.mv cfg.io_channels 0 d.delta)).getD i 0 = 0 := by
        rw [after_purge_getD _ _ _ _ _ _ hi, hs]
        simp
      rcases report_phase_cases I cfg d inp.now
          (sample_loop inp.mv cfg.io_channels 0 d.delta) with
        ⟨_, e1, _⟩ | ⟨idx, _, _, _, _, _, e1, _⟩
      · rw [e1]
        exact hap
      · rw [e1, (emit_phase_at I cfg d inp.now _ idx i ch hch
          (by rw [sample_loop_length]; exact hwf.1) hwf.2).1, hap]
        simp
  · have hc := do_step_control I cfg d s (fun inp e => ht ⟨inp, e⟩)
    rw [hc.1, hc.2.2]
    exact ⟨hd0, rfl⟩

theorem run_steps_invariant (I : Nat) (cfg : analog_input_config) (steps : List dev_step) :
    ∀ (d : analog_input_data), well_formed cfg d → acc_prev_zero cfg d →
      ∀ o ∈ run_steps I cfg d steps, well_formed cfg o.data ∧ acc_prev_zero cfg o.data := by
  induction steps with
  | nil => intro d _ _ o ho; simp [run_steps] at ho
  | cons s rest ih =>
    intro d hwf hz o ho
    have hstep := do_step_invariant I cfg d s hwf hz
    simp only [run_steps] at ho
    cases hret : (do_step I cfg d s).ret with
    | returned code =>
      rw [hret] at ho
      simp only [List.mem_cons] at ho
      rcases ho with rfl | ho
      · exact hstep
      · exact ih _ hstep.1 hstep.2 o ho
    | out_of_bounds k =>
      rw [hret] at ho
      simp only [List.mem_singleton] at ho
      subst ho
      exact hstep
    | spins =>
      rw [hret] at ho
      simp only [List.mem_singleton] at ho
      subst ho
      exact hstep

theorem run_steps_zero (I : Nat) (cfg : analog_input_config) (i : Nat)
    (ch : analog_input_io_channel) (hch : cfg.io_channels[i]? = some ch)
    (hacc : ch.report_on_change_only = false) (steps : List dev_step) :
    ∀ (d : analog_input_data), well_formed cfg d → acc_prev_zero cfg d →
      d.delta.getD i 0 = 0 →
      (∀ inp, dev_step.tick inp ∈ steps → conditioned ch (inp.mv i) = 0) →
      ∀ o ∈ run_steps I cfg d steps,
        o.data.delta.getD i 0 = 0 ∧ events_of i o.events = [] := by
  induction steps with
  | nil => intro d _ _ _ _ o ho; simp [run_steps] at ho
  | cons s rest ih =>
    intro d hwf hz hd0 hv o ho
    have hinv := do_step_invariant I cfg d s hwf hz
    have hstep := do_step_zero I cfg d s i ch hwf hz hch hacc hd0
      (fun inp e => hv inp (by rw [e]; exact List.mem_cons_self _ _))
    have hv' : ∀ inp, dev_step.tick inp ∈ rest → conditioned ch (inp.mv i) = 0 :=
      fun inp h => hv inp (List.mem_cons_of_mem _ h)
    simp only [run_steps] at ho
    cases hret : (do_step I cfg d s).ret with
    | returned code =>
      rw [hret] at ho
      simp only [List.mem_cons] at ho
      rcases ho with rfl | ho
      · exact hstep
      · exact ih _ hinv.1 hinv.2 hstep.1 hv' o ho
    | out_of_bounds k =>
      rw [hret] at ho
      simp only [List.mem_singleton] at ho
      subst ho
      exact hstep
    | spins =>
      rw [hret] at ho
      simp only [List.mem_singleton] at ho
      subst ho
      exact hstep

/-! ### The work handler -/

/-- Lines 106-161 leave every field but the arrays and the two timestamps as
it was. -/
theorem report_phase_frame (I : Nat) (cfg : analog_input_config) (d : analog_input_data)
    (now : Int) (delta : List Int) :
    (report_phase I cfg d now delta).data.error_count = d.error_count ∧
    (report_phase I cfg d now delta).data.enabled = d.enabled ∧
    (report_phase I cfg d now delta).data.ready = d.ready ∧
    (report_phase I cfg d now delta).data.actived = d.actived ∧
    (report_phase I cfg d now delta).data.sampling_hz = d.sampling_hz ∧
    (report_phase I cfg d now delta).data.last_successful_read = d.last_successful_read := by
  unfold report_phase
  by_cases hs : suppress_due I d now
  · simp [hs]
  · by_cases ha : d.actived = false
    · simp [hs, ha]
    · simp only [if_neg hs, if_neg ha]
      cases sync_scan cfg.io_channels_len (after_purge I cfg d now delta)
          (after_purge I cfg d now d.prev) <;> simp

theorem tick_frame (I : Nat) (cfg : analog_input_config) (d : analog_input_data)
    (inp : tick_input) :
    (analog_input_report_data I cfg d inp).data.error_count = d.error_count ∧
    (analog_input_report_data I cfg d inp).data.enabled = d.enabled ∧
    (analog_input_report_data I cfg d inp).data.ready = d.ready ∧
    (analog_input_report_data I cfg d inp).data.actived = d.actived ∧
    (analog_input_report_data I cfg d inp).data.sampling_hz = d.sampling_hz ∧
    (analog_input_report_data I cfg d inp).data.last_successful_read
      = d.last_successful_read := by
  rcases tick_cases I cfg d inp with ⟨_, e⟩ | ⟨_, _, e⟩
  · rw [e]
    exact ⟨rfl, rfl, rfl, rfl, rfl, rfl⟩
  · rw [e]
    exact report_phase_frame I cfg d inp.now _

/-- The reset requests and the error count lines 173-200 leave. -/
theorem handle_result_resets (T : Nat) (o : tick_output) (reset_err : Int) :
    (handle_result T o reset_err).resets =
      (if ret_failed o.ret ∧ T < (o.data.error_count + 1) % 4294967296 then 1 else 0) ∧
    (handle_result T o reset_err).data.error_count =
      (if ret_failed o.ret then
        (if T < (o.data.error_count + 1) % 4294967296 ∧ ¬ reset_err < 0 then 0
         else (o.data.error_count + 1) % 4294967296)
       else if (handle_result T o reset_err).completed then 0 else o.data.error_count) := by
  obtain ⟨data, events, ret⟩ := o
  cases ret with
  | returned err =>
    simp only [handle_result, ret_failed]
    by_cases he : err < 0
    · by_cases ht : T < (data.error_count + 1) % 4294967296
      · by_cases hr : reset_err < 0 <;> simp [he, ht, hr]
      · simp [he, ht]
    · simp [he]
  | out_of_bounds k => simp [handle_result, ret_failed]
  | spins => simp [handle_result, ret_failed]

/-- The reset requests and the error count of one run of the handler. -/
theorem handler_resets (I T : Nat) (cfg : analog_input_config) (d : analog_input_data)
    (w : work_input) :
    (sampling_work_handler I T cfg d w).resets =
      (if cycle_failed I cfg d w.tick ∧ T < (d.error_count + 1) % 4294967296 then 1 else 0) ∧
    (sampling_work_handler I T cfg d w).data.error_count =
      (if cycle_failed I cfg d w.tick then
        (if T < (d.error_count + 1) % 4294967296 ∧ ¬ w.reset_err < 0 then 0
         else (d.error_count + 1) % 4294967296)
       else if (sampling_work_handler I T cfg d w).completed then 0 else d.error_count) := by
  have hec := (tick_frame I cfg d w.tick).1
  have h := handle_result_resets T (analog_input_report_data I cfg d w.tick) w.reset_err
  rw [hec] at h
  exact h

/-- Lines 106-161 never return a negative code. -/
theorem report_phase_not_failed (I : Nat) (cfg : analog_input_config) (d : analog_input_data)
    (now : Int) (delta : List Int) : ¬ ret_failed (report_phase I cfg d now delta).ret := by
  unfold report_phase
  by_cases hs : suppress_due I d now
  · simp [hs, ret_failed]
  · by_cases ha : d.actived = false
    · simp [hs, ha, ret_failed]
    · simp only [if_neg hs, if_neg ha]
      cases sync_scan cfg.io_channels_len (after_purge I cfg d now delta)
          (after_purge I cfg d now d.prev) <;> simp [ret_failed]

/-- A failed cycle returned before the sampling loop stored anything. -/
theorem cycle_failed_unchanged (I : Nat) (cfg : analog_input_config) (d : analog_input_data)
    (inp : tick_input) (h : cycle_failed I cfg d inp) :
    (analog_input_report_data I cfg d inp).data = d ∧
    (analog_input_report_data I cfg d inp).events = [] := by
  rcases tick_cases I cfg d inp with ⟨e0, e1⟩ | ⟨_, _, e⟩
  · exact ⟨e1, e0⟩
  · unfold cycle_failed at h
    rw [e] at h
    exact absurd h (report_phase_not_failed I cfg d inp.now _)

/-- Lines 173-200 never write `last_successful_read`. -/
theorem handle_result_last_successful_read (T : Nat) (o : tick_output) (reset_err : Int) :
    (handle_result T o reset_err).data.last_successful_read = o.data.last_successful_read := by
  obtain ⟨data, events, ret⟩ := o
  cases ret with
  | returned err =>
    simp only [handle_result]
    split_ifs <;> rfl
  | out_of_bounds k => rfl
  | spins => rfl

/-- What lines 173-200 do after a failed cycle, by case. -/
theorem handle_result_failed (T : Nat) (o : tick_output) (reset_err : Int)
    (h : ret_failed o.ret) :
    (T < (o.data.error_count + 1) % 4294967296 → reset_err < 0 →
      handle_result T o reset_err =
        { data := { o.data with error_count := (o.data.error_count + 1) % 4294967296,
                                enabled := false }
          events := o.events, timer := [timer_op.k_timer_stop], resets := 1,
          completed := true }) ∧
    (T < (o.data.error_count + 1) % 4294967296 → ¬ reset_err < 0 →
      handle_result T o reset_err =
        { data := { o.data with error_count := 0 }
          events := o.events, timer := [], resets := 1, completed := true }) ∧
    (¬ T < (o.data.error_count + 1) % 4294967296 →
      handle_result T o reset_err =
        { data := { o.data with error_count := (o.data.error_count + 1) % 4294967296 }
          events := o.events, timer := [], resets := 0, completed := true }) := by
  obtain ⟨data, events, ret⟩ := o
  cases ret with
  | returned err =>
    have he : err < 0 := h
    refine ⟨fun ht hr => ?_, fun ht hr => ?_, fun ht => ?_⟩
    · simp [handle_result, he, ht, hr]
    · simp [handle_result, he, ht, hr]
    · simp [handle_result, he, ht]
  | out_of_bounds k => exact absurd h (by simp [ret_failed])
  | spins => exact absurd h (by simp [ret_failed])

/-! ### Gated and purged ticks -/

theorem scan_probe_found_inv (delta prev : List Int) (i j : Nat) (next : scan_result)
    (h : scan_probe delta prev i next = scan_result.found j) :
    (reportable delta prev j ∧ j < delta.length ∧ j < prev.length) ∨
      next = scan_result.found j := by
  unfold scan_probe at h
  by_cases hd : i < delta.length
  · by_cases hp : i < prev.length
    · rw [getElem?_of_getD_ne hd, getElem?_of_getD_ne hp] at h
      simp only at h
      split_ifs at h with hne
      · have hij : i = j := by injection h
        subst hij
        exact Or.inl ⟨hne, hd, hp⟩
      · exact Or.inr h
    · rw [List.getElem?_eq_none (by omega : prev.length ≤ i)] at h
      split at h <;> simp_all
  · rw [List.getElem?_eq_none (by omega : delta.length ≤ i)] at h
    simp at h

theorem scan_down_found_inv (delta prev : List Int) (w : scan_result) (j : Nat) :
    ∀ n, scan_down delta prev w n = scan_result.found j →
      (reportable delta prev j ∧ j < delta.length ∧ j < prev.length) ∨
        w = scan_result.found j := by
  intro n
  induction n with
  | zero =>
    intro h
    exact scan_probe_found_inv delta prev 0 j w h
  | succ n ih =>
    intro h
    simp only [scan_down] at h
    rcases scan_probe_found_inv delta prev (n + 1) j _ h with h1 | h1
    · exact Or.inl h1
    · exact ih h1

/-- A sync index the scan returns is an index inside both arrays at which
`delta` and `prev` differ. -/
theorem sync_scan_found_inv (len : Nat) (delta prev : List Int) (j : Nat)
    (h : sync_scan len delta prev = scan_result.found j) :
    reportable delta prev j ∧ j < delta.length ∧ j < prev.length := by
  unfold sync_scan at h
  rcases scan_down_found_inv delta prev _ j _ h with h1 | h1
  · exact h1
  · rcases scan_down_found_inv delta prev _ j _ h1 with h2 | h2
    · exact h2
    · exact absurd h2 (by simp)

/-- A gated tick (line 122 or line 127) returns 0 without an event and leaves
the arrays as the purge left them. -/
theorem report_phase_gated (I : Nat) (cfg : analog_input_config) (d : analog_input_data)
    (now : Int) (delta : List Int) (hg : suppress_due I d now ∨ d.actived = false) :
    (report_phase I cfg d now delta).events = [] ∧
    (report_phase I cfg d now delta).ret = call_end.returned 0 ∧
    (report_phase I cfg d now delta).data.delta = after_purge I cfg d now delta ∧
    (report_phase I cfg d now delta).data.prev = after_purge I cfg d now d.prev := by
  unfold report_phase
  by_cases hs : suppress_due I d now
  · simp [hs]
  · have ha : d.actived = false := by
      rcases hg with h | h
      · exact absurd h hs
      · exact h
    simp [hs, ha]

/-- A purged tick emits nothing and leaves both arrays zero. -/
theorem report_phase_purged (I : Nat) (cfg : analog_input_config) (d : analog_input_data)
    (now : Int) (delta : List Int)
    (hd : delta.length = cfg.io_channels_len) (_hp : d.prev.length = cfg.io_channels_len)
    (hpurge : purge_due I d now) :
    (report_phase I cfg d now delta).events = [] ∧
    ∀ i, i < cfg.io_channels_len →
      (report_phase I cfg d now delta).data.delta.getD i 0 = 0 ∧
      (report_phase I cfg d now delta).data.prev.getD i 0 = 0 := by
  have hz : ∀ (xs : List Int) i, i < cfg.io_channels_len →
      (after_purge I cfg d now xs).getD i 0 = 0 := by
    intro xs i hi
    rw [after_purge_getD _ _ _ _ _ _ hi, if_pos hpurge]
  rcases report_phase_cases I cfg d now delta with ⟨e0, e1, e2⟩ | ⟨idx, _, _, hscan, _, _, _, _⟩
  · refine ⟨e0, fun i hi => ?_⟩
    rw [e1, e2]
    exact ⟨hz _ i hi, hz _ i hi⟩
  · obtain ⟨hrep, hlt, _⟩ := sync_scan_found_inv _ _ _ _ hscan
    rw [after_purge_length, hd] at hlt
    exact absurd (by rw [hz _ idx hlt, hz _ idx hlt]) hrep

theorem after_purge_not_due (I : Nat) (cfg : analog_input_config) (d : analog_input_data)
    (now : Int) (xs : List Int) (h : ¬ purge_due I d now) :
    after_purge I cfg d now xs = xs := by
  unfold after_purge
  rw [if_neg h]

/-! ### The scan without a reportable channel -/

theorem scan_probe_out_of_bounds (delta prev : List Int) (i : Nat) (next : scan_result)
    (h : delta.length ≤ i) : scan_probe delta prev i next = scan_result.out_of_bounds i := by
  unfold scan_probe
  rw [List.getElem?_eq_none h]

/-- With one slot per channel, at most 255 channels and no reportable channel,
the scan reads index 255, outside the arrays. -/
theorem sync_scan_none (len : Nat) (delta prev : List Int) (hlen : len ≤ 255)
    (hd : delta.length = len) (hp : prev.length = len)
    (h : ∀ k, k < len → ¬ reportable delta prev k) :
    sync_scan len delta prev = scan_result.out_of_bounds 255 := by
  have hwrap : scan_down delta prev scan_result.spins 255 = scan_result.out_of_bounds 255 := by
    show scan_probe delta prev 255 _ = _
    exact scan_probe_out_of_bounds delta prev 255 _ (by omega)
  unfold sync_scan
  rw [hwrap]
  rcases Nat.eq_zero_or_pos len with h0 | hpos
  · subst h0
    show scan_probe delta prev 255 _ = _
    exact scan_probe_out_of_bounds delta prev 255 _ (by omega)
  · have hs : (len + 255) % 256 = len - 1 := by omega
    rw [hs]
    exact scan_down_none delta prev _ (len - 1) (by omega) (by omega)
      (fun k hk => h k (by omega))

/-- Lines 131-139 when the scan leaves the arrays. -/
theorem report_phase_out_of_bounds (I : Nat) (cfg : analog_input_config)
    (d : analog_input_data) (now : Int) (delta : List Int) (k : Nat)
    (hs : ¬ suppress_due I d now) (ha : d.actived = true)
    (hscan : sync_scan cfg.io_channels_len (after_purge I cfg d now delta)
      (after_purge I cfg d now d.prev) = scan_result.out_of_bounds k) :
    (report_phase I cfg d now delta).ret = call_end.out_of_bounds k ∧
    (report_phase I cfg d now delta).events = [] := by
  have ha' : ¬ d.actived = false := by simp [ha]
  unfold report_phase
  simp only [if_neg hs, if_neg ha', hscan]
  simp

/-! ### The events of one channel -/

theorem events_of_append (k : Nat) (xs ys : List input_event) :
    events_of k (xs ++ ys) = events_of k xs ++ events_of k ys := by
  unfold events_of
  exact List.filter_append _ _

theorem events_of_event_for (ch : analog_input_io_channel) (i k : Nat) (dv idx : Int) :
    events_of k [event_for ch i dv idx] = if i = k then [event_for ch i dv idx] else [] := by
  unfold events_of event_for
  by_cases h : i = k <;> simp [List.filter, h]

theorem emit_loop_events_of_lt (rpt : Bool) (now idx : Int)
    (chs : List analog_input_io_channel) :
    ∀ (i0 : Nat) (st : emit_state) (k : Nat), k < i0 →
      events_of k (emit_loop rpt now idx chs i0 st).events = events_of k st.events := by
  induction chs with
  | nil => intro i0 st k _; rfl
  | cons c rest ih =>
    intro i0 st k hk
    simp only [emit_loop]
    split_ifs with h1
    · rw [ih (i0 + 1) _ k (by omega), emit_one_events, events_of_append, events_of_event_for,
        if_neg (by omega), List.append_nil]
    · exact ih (i0 + 1) st k (by omega)

theorem emit_loop_events_of_at (rpt : Bool) (now idx : Int)
    (chs : List analog_input_io_channel) :
    ∀ (i0 : Nat) (st : emit_state) (j : Nat) (ch : analog_input_io_channel),
      chs[j]? = some ch →
      events_of (i0 + j) (emit_loop rpt now idx chs i0 st).events =
        events_of (i0 + j) st.events ++
          (if reportable st.delta st.prev (i0 + j)
            then [event_for ch (i0 + j) (st.delta.getD (i0 + j) 0) idx] else []) := by
  induction chs with
  | nil => intro i0 st j ch h; simp at h
  | cons c rest ih =>
    intro i0 st j ch h
    cases j with
    | zero =>
      simp only [List.getElem?_cons_zero, Option.some.injEq] at h
      subst h
      simp only [Nat.add_zero, emit_loop, reportable]
      by_cases h1 : st.delta.getD i0 0 ≠ st.prev.getD i0 0
      · rw [if_pos h1, if_pos h1, emit_loop_events_of_lt rpt now idx rest (i0 + 1) _ i0 (by omega),
          emit_one_events, events_of_append, events_of_event_for, if_pos rfl]
      · rw [if_neg h1, if_neg h1, emit_loop_events_of_lt rpt now idx rest (i0 + 1) _ i0 (by omega),
          List.append_nil]
    | succ j =>
      simp only [List.getElem?_cons_succ] at h
      have e : i0 + (j + 1) = (i0 + 1) + j := by omega
      have hne : i0 ≠ i0 + 1 + j := by omega
      rw [e]
      simp only [emit_loop]
      by_cases h1 : st.delta.getD i0 0 ≠ st.prev.getD i0 0
      · rw [if_pos h1, ih (i0 + 1) _ j ch h]
        simp only [reportable, emit_one_delta_ne _ _ _ _ _ _ hne,
          emit_one_prev_ne _ _ _ _ _ _ hne, emit_one_events, events_of_append,
          events_of_event_for, if_neg hne, List.append_nil]
      · rw [if_neg h1]
        exact ih (i0 + 1) st j ch h

/-! ### The two timestamps -/

/-- The emission loop leaves `last_rpt_time` and the events as they were, or
it emits and `last_rpt_time` is `now` (when the timestamp exists). -/
theorem emit_loop_last_rpt (rpt : Bool) (now idx : Int) (chs : List analog_input_io_channel) :
    ∀ (i0 : Nat) (st : emit_state),
      ((emit_loop rpt now idx chs i0 st).last_rpt_time = st.last_rpt_time ∧
        (emit_loop rpt now idx chs i0 st).events = st.events) ∨
      ((emit_loop rpt now idx chs i0 st).last_rpt_time
          = (if rpt then now else st.last_rpt_time) ∧
        st.events.length < (emit_loop rpt now idx chs i0 st).events.length) := by
  induction chs with
  | nil => intro i0 st; exact Or.inl ⟨rfl, rfl⟩
  | cons c rest ih =>
    intro i0 st
    simp only [emit_loop]
    by_cases h1 : st.delta.getD i0 0 ≠ st.prev.getD i0 0
    · rw [if_pos h1]
      right
      have hlen : st.events.length <
          (emit_one rpt now idx c i0 (st.delta.getD i0 0) st).events.length := by
        simp [emit_one]
      rcases ih (i0 + 1) (emit_one rpt now idx c i0 (st.delta.getD i0 0) st) with
        ⟨e1, e2⟩ | ⟨e1, e2⟩
      · rw [e1, e2]
        exact ⟨rfl, hlen⟩
      · rw [e1]
        refine ⟨?_, by omega⟩
        cases rpt <;> simp [emit_one]
    · rw [if_neg h1]
      exact ih (i0 + 1) st

/-- The timestamps after lines 106-161. -/
theorem report_phase_times (I : Nat) (cfg : analog_input_config) (d : analog_input_data)
    (now : Int) (delta : List Int) :
    (report_phase I cfg d now delta).data.last_smp_time
      = (if 0 < I then now else d.last_smp_time) ∧
    (((report_phase I cfg d now delta).events = [] ∧
        (report_phase I cfg d now delta).data.last_rpt_time = d.last_rpt_time) ∨
      ((report_phase I cfg d now delta).events ≠ [] ∧
        (report_phase I cfg d now delta).data.last_rpt_time
          = (if 0 < I then now else d.last_rpt_time))) := by
  unfold report_phase
  by_cases hs : suppress_due I d now
  · simp [hs]
  · by_cases ha : d.actived = false
    · simp [hs, ha]
    · simp only [if_neg hs, if_neg ha]
      cases hscan : sync_scan cfg.io_channels_len (after_purge I cfg d now delta)
          (after_purge I cfg d now d.prev) with
      | found idx =>
        simp only [true_and]
        unfold emit_phase
        rcases emit_loop_last_rpt (decide (0 < I)) now (wrap8 (idx : Int)) cfg.io_channels 0
            { delta := after_purge I cfg d now delta, prev := after_purge I cfg d now d.prev,
              last_rpt_time := d.last_rpt_time, events := [] } with ⟨e1, e2⟩ | ⟨e1, e2⟩
        · left
          exact ⟨e2, e1⟩
        · right
          refine ⟨?_, ?_⟩
          · intro hnil
            rw [hnil] at e2
            simp at e2
          · rw [e1]
            simp
      | out_of_bounds k => simp
      | spins => simp

/-- The timestamps after one call. -/
theorem tick_times_after (I : Nat) (cfg : analog_input_config) (d : analog_input_data)
    (inp : tick_input) :
    ((analog_input_report_data I cfg d inp).data.last_smp_time = d.last_smp_time ∧
      (analog_input_report_data I cfg d inp).data.last_rpt_time = d.last_rpt_time) ∨
    ((analog_input_report_data I cfg d inp).data.last_smp_time
        = (if 0 < I then inp.now else d.last_smp_time) ∧
      (((analog_input_report_data I cfg d inp).events = [] ∧
          (analog_input_report_data I cfg d inp).data.last_rpt_time = d.last_rpt_time) ∨
        ((analog_input_report_data I cfg d inp).events ≠ [] ∧
          (analog_input_report_data I cfg d inp).data.last_rpt_time
            = (if 0 < I then inp.now else d.last_rpt_time)))) := by
  rcases tick_cases I cfg d inp with ⟨_, e⟩ | ⟨_, _, e⟩
  · left
    rw [e]
    exact ⟨rfl, rfl⟩
  · right
    rw [e]
    exact report_phase_times I cfg d inp.now _

/-- A control operation leaves both timestamps as they were. -/
theorem do_step_control_times (I : Nat) (cfg : analog_input_config) (d : analog_input_data)
    (s : dev_step) (h : ∀ inp, s ≠ dev_step.tick inp) :
    (do_step I cfg d s).data.last_smp_time = d.last_smp_time ∧
    (do_step I cfg d s).data.last_rpt_time = d.last_rpt_time := by
  cases s with
  | tick inp => exact absurd rfl (h inp)
  | set_active b =>
    simp only [do_step, active_set_value]
    split_ifs <;> exact ⟨rfl, rfl⟩
  | set_hz hz =>
    simp only [do_step, sample_hz_set_value]
    split_ifs <;> exact ⟨rfl, rfl⟩
  | set_enable b =>
    simp only [do_step, enable_set_value]
    split_ifs <;> exact ⟨rfl, rfl⟩

theorem do_step_well_formed (I : Nat) (cfg : analog_input_config) (d : analog_input_data)
    (s : dev_step) (h : well_formed cfg d) : well_formed cfg (do_step I cfg d s).data := by
  by_cases ht : ∃ inp, s = dev_step.tick inp
  · obtain ⟨inp, rfl⟩ := ht
    exact tick_well_formed I cfg d inp h
  · have hc := do_step_control I cfg d s (fun inp e => ht ⟨inp, e⟩)
    exact ⟨by rw [hc.1]; exact h.1, by rw [hc.2.1]; exact h.2⟩

/-- With a report interval, a tick that lies at least `I` after the previous
sampling tick, or comes while both timestamps are still 0, emits nothing. -/
theorem tick_silent (I : Nat) (cfg : analog_input_config) (d : analog_input_data)
    (inp : tick_input) (hI : 0 < I) (hwf : well_formed cfg d)
    (hrpt : d.last_rpt_time = 0)
    (hsmp : d.last_smp_time = 0 ∨ d.last_smp_time + (I : Int) ≤ inp.now) :
    (analog_input_report_data I cfg d inp).events = [] := by
  rcases tick_cases I cfg d inp with ⟨e, _⟩ | ⟨_, _, e⟩
  · exact e
  · rw [e]
    by_cases hp : purge_due I d inp.now
    · exact (report_phase_purged I cfg d inp.now _ (by rw [sample_loop_length]; exact hwf.1)
        hwf.2 hp).1
    · have hlt : inp.now - d.last_smp_time < (I : Int) := by
        by_contra hge
        exact hp ⟨hI, by omega⟩
      have hs : suppress_due I d inp.now := by
        refine ⟨hI, ?_⟩
        rcases hsmp with h0 | h1
        · rw [hrpt]
          rw [h0] at hlt
          exact hlt
        · omega
      exact (report_phase_gated I cfg d inp.now _ (Or.inl hs)).1

/-! ### Runs and the two timestamps -/

theorem tick_times_control (s : dev_step) (rest : List dev_step)
    (h : ∀ inp, s ≠ dev_step.tick inp) : tick_times (s :: rest) = tick_times rest := by
  cases s with
  | tick inp => exact absurd rfl (h inp)
  | set_active b => rfl
  | set_hz hz => rfl
  | set_enable b => rfl

theorem run_records_cons (I : Nat) (cfg : analog_input_config) (d : analog_input_data)
    (s : dev_step) (rest : List dev_step) (r : step_record)
    (h : r ∈ run_records I cfg d (s :: rest)) :
    r = { pre := d, step := s, out := do_step I cfg d s } ∨
      r ∈ run_records I cfg (do_step I cfg d s).data rest := by
  simp only [run_records, List.mem_cons] at h
  rcases h with h | h
  · exact Or.inl h
  · right
    cases hret : (do_step I cfg d s).ret with
    | returned code =>
      rw [hret] at h
      exact h
    | out_of_bounds k =>
      rw [hret] at h
      simp at h
    | spins =>
      rw [hret] at h
      simp at h

theorem spaced_chain_skip (I : Nat) (a b : Int) (l : List Int)
    (h : List.Chain (fun x y => x + (I : Int) ≤ y) a (b :: l)) :
    List.Chain (fun x y => x + (I : Int) ≤ y) a l := by
  rw [List.chain_cons] at h
  obtain ⟨hab, hl⟩ := h
  cases l with
  | nil => exact List.Chain.nil
  | cons c l' =>
    rw [List.chain_cons] at hl ⊢
    exact ⟨by omega, hl.2⟩

/-- Cycles at least `I` apart, from timestamps 0: no executed step emits. -/
theorem run_records_silent (I : Nat) (cfg : analog_input_config) (hI : 0 < I)
    (steps : List dev_step) :
    ∀ (d : analog_input_data), well_formed cfg d → d.last_rpt_time = 0 →
      (d.last_smp_time = 0 ∨
        List.Chain (fun x y => x + (I : Int) ≤ y) d.last_smp_time (tick_times steps)) →
      spaced_by I (tick_times steps) →
      ∀ r ∈ run_records I cfg d steps, r.out.events = [] := by
  induction steps with
  | nil => intro d _ _ _ _ r hr; simp [run_records] at hr
  | cons s rest ih =>
    intro d hwf hrpt hsmp hsp r hr
    have hwf' := do_step_well_formed I cfg d s hwf
    by_cases ht : ∃ inp, s = dev_step.tick inp
    · obtain ⟨inp, rfl⟩ := ht
      have hsp' : List.Chain (fun x y => x + (I : Int) ≤ y) inp.now (tick_times rest) := hsp
      have hsilent : (analog_input_report_data I cfg d inp).events = [] := by
        apply tick_silent I cfg d inp hI hwf hrpt
        rcases hsmp with h0 | h1
        · exact Or.inl h0
        · exact Or.inr (List.chain_cons.mp h1).1
      rcases run_records_cons I cfg d _ rest r hr with rfl | hr'
      · exact hsilent
      · have hafter := tick_times_after I cfg d inp
        have hrpt' : (analog_input_report_data I cfg d inp).data.last_rpt_time = 0 := by
          rcases hafter with ⟨_, e⟩ | ⟨_, ⟨_, e⟩ | ⟨hne, _⟩⟩
          · rw [e, hrpt]
          · rw [e, hrpt]
          · exact absurd hsilent hne
        have hsmp' : (analog_input_report_data I cfg d inp).data.last_smp_time = 0 ∨
            List.Chain (fun x y => x + (I : Int) ≤ y)
              (analog_input_report_data I cfg d inp).data.last_smp_time (tick_times rest) := by
          rcases hafter with ⟨e, _⟩ | ⟨e, _⟩
          · rw [e]
            rcases hsmp with h0 | h1
            · exact Or.inl h0
            · exact Or.inr (spaced_chain_skip I _ _ _ h1)
          · rw [e, if_pos hI]
            exact Or.inr hsp'
        exact ih _ hwf' hrpt' hsmp' (List.Chain'.tail hsp) r hr'
    · have hnt : ∀ inp, s ≠ dev_step.tick inp := fun inp e => ht ⟨inp, e⟩
      have hc := do_step_control I cfg d s hnt
      have htm := do_step_control_times I cfg d s hnt
      rw [tick_times_control s rest hnt] at hsmp hsp
      rcases run_records_cons I cfg d _ rest r hr with rfl | hr'
      · exact hc.2.2
      · exact ih _ hwf' (by rw [htm.2]; exact hrpt) (by rw [htm.1]; exact hsmp) hsp r hr'

/-- Under a clock that never goes back, `last_rpt_time <= last_smp_time`
before and after every executed step. -/
theorem run_records_ordered (I : Nat) (cfg : analog_input_config) (steps : List dev_step) :
    ∀ (d : analog_input_data) (t0 : Int), d.last_rpt_time ≤ d.last_smp_time →
      d.last_smp_time ≤ t0 → List.Chain (fun a b => a ≤ b) t0 (tick_times steps) →
      ∀ r ∈ run_records I cfg d steps,
        r.pre.last_rpt_time ≤ r.pre.last_smp_time ∧
        r.out.data.last_rpt_time ≤ r.out.data.last_smp_time := by
  induction steps with
  | nil => intro d t0 _ _ _ r hr; simp [run_records] at hr
  | cons s rest ih =>
    intro d t0 hord hle hclk r hr
    by_cases ht : ∃ inp, s = dev_step.tick inp
    · obtain ⟨inp, rfl⟩ := ht
      obtain ⟨hnow, hclk'⟩ := List.chain_cons.mp (show List.Chain (fun a b => a ≤ b) t0
        (inp.now :: tick_times rest) from hclk)
      have hout : (analog_input_report_data I cfg d inp).data.last_rpt_time
            ≤ (analog_input_report_data I cfg d inp).data.last_smp_time ∧
          (analog_input_report_data I cfg d inp).data.last_smp_time ≤ inp.now := by
        rcases tick_times_after I cfg d inp with ⟨e1, e2⟩ | ⟨e1, ⟨_, e2⟩ | ⟨_, e2⟩⟩
        · rw [e1, e2]
          exact ⟨hord, by omega⟩
        · rw [e1, e2]
          split_ifs <;> constructor <;> omega
        · rw [e1, e2]
          split_ifs <;> constructor <;> omega
      rcases run_records_cons I cfg d _ rest r hr with rfl | hr'
      · exact ⟨hord, hout.1⟩
      · exact ih _ inp.now hout.1 hout.2 hclk' r hr'
    · have hnt : ∀ inp, s ≠ dev_step.tick inp := fun inp e => ht ⟨inp, e⟩
      have htm := do_step_control_times I cfg d s hnt
      rw [tick_times_control s rest hnt] at hclk
      rcases run_records_cons I cfg d _ rest r hr with rfl | hr'
      · exact ⟨hord, by rw [htm.1, htm.2]; exact hord⟩
      · exact ih _ t0 (by rw [htm.1, htm.2]; exact hord) (by rw [htm.1]; exact hle) hclk r hr'

/-! ### Conditioning without wrap -/

/-- When no conversion wraps, lines 75-92 compute the spec's `condition`. -/
theorem conditioned_eq_spec_of_fits (p : analog_input_io_channel) (mv : Int)
    (hdz : p.mv_deadzone ≤ 32767) (hoff : fits16 (spec_offset p mv))
    (hinv : fits16 (spec_invert p (spec_clamp p (spec_deadzone p (spec_offset p mv)))))
    (hmul : fits32 (spec_invert p (spec_clamp p (spec_deadzone p (spec_offset p mv)))
      * p.scale_multiplier))
    (hquo : fits16 (condition_spec mv p)) :
    conditioned p mv = condition_spec mv p := by
  have e1 : cond_offset p mv = spec_offset p mv := wrap16_of_fits hoff
  have f2 : fits16 (spec_deadzone p (spec_offset p mv)) := spec_deadzone_fits p hoff
  have e2 : cond_deadzone p (spec_offset p mv) = spec_deadzone p (spec_offset p mv) :=
    cond_deadzone_eq_spec p hdz hoff
  have e3 : cond_clamp p (spec_deadzone p (spec_offset p mv))
      = spec_clamp p (spec_deadzone p (spec_offset p mv)) := cond_clamp_eq_spec p f2
  have e4 : cond_invert p (spec_clamp p (spec_deadzone p (spec_offset p mv)))
      = spec_invert p (spec_clamp p (spec_deadzone p (spec_offset p mv))) := by
    unfold cond_invert
    unfold spec_invert at hinv ⊢
    split_ifs with hi
    · rw [if_pos hi] at hinv
      rw [Int.mul_neg_one]
      exact wrap16_of_fits hinv
    · rfl
  unfold conditioned
  rw [e1, e2, e3, e4]
  unfold cond_rescale
  rw [wrap32_of_fits hmul]
  exact wrap16_of_fits hquo

theorem tdiv_le_tdiv_of_pos {x y d : Int} (hd : 0 < d) (h : x ≤ y) :
    x.tdiv d ≤ y.tdiv d := by
  rcases le_or_lt 0 x with hx | hx
  · rw [Int.tdiv_eq_ediv hx hd.le, Int.tdiv_eq_ediv (le_trans hx h) hd.le]
    exact Int.ediv_le_ediv hd h
  · rcases le_or_lt 0 y with hy | hy
    · have h1 : (-x).tdiv d ≥ 0 := Int.tdiv_nonneg (by omega) hd.le
      rw [Int.neg_tdiv] at h1
      have h2 : 0 ≤ y.tdiv d := Int.tdiv_nonneg hy hd.le
      omega
    · have h1 : (-y).tdiv d ≤ (-x).tdiv d := by
        rw [Int.tdiv_eq_ediv (by omega) hd.le, Int.tdiv_eq_ediv (by omega) hd.le]
        exact Int.ediv_le_ediv hd (by omega)
      rw [Int.neg_tdiv, Int.neg_tdiv] at h1
      omega

theorem spec_deadzone_mono (p : analog_input_io_channel) {x y : Int} (h : x ≤ y) :
    spec_deadzone p x ≤ spec_deadzone p y := by
  unfold spec_deadzone
  split_ifs <;> omega

theorem spec_clamp_mono (p : analog_input_io_channel) {x y : Int} (h : x ≤ y) :
    spec_clamp p x ≤ spec_clamp p y := by
  unfold spec_clamp
  split_ifs <;> omega

/-- The spec's `condition` is order-preserving without inversion, with a
non-negative multiplier and a positive divisor. -/
theorem condition_spec_mono (p : analog_input_io_channel) {a b : Int}
    (hinv : p.invert = false) (hm : 0 ≤ p.scale_multiplier) (hd : 0 < p.scale_divisor)
    (hab : a ≤ b) : condition_spec a p ≤ condition_spec b p := by
  unfold condition_spec spec_rescale spec_invert
  simp only [hinv, Bool.false_eq_true, if_false]
  apply tdiv_le_tdiv_of_pos hd
  apply Int.mul_le_mul_of_nonneg_right _ hm
  apply spec_clamp_mono
  apply spec_deadzone_mono
  unfold spec_offset
  omega

theorem wrap16_fits (x : Int) : fits16 (wrap16 x) := by
  unfold fits16 wrap16
  omega

theorem cond_deadzone_fits (p : analog_input_io_channel) {v : Int} (h : fits16 v) :
    fits16 (cond_deadzone p v) := by
  unfold cond_deadzone
  simp only
  split_ifs <;> first | exact wrap16_fits _ | exact h | (unfold fits16; omega)

theorem spec_clamp_idem (p q : analog_input_io_channel) (hq : q.mv_min_max = p.mv_min_max)
    (v : Int) : spec_clamp q (spec_clamp p v) = spec_clamp p v := by
  unfold spec_clamp
  rw [hq]
  split_ifs <;> omega

/-! ## Claims -/

/-- C1: for a profile with `scale_divisor != 0` and `mv_deadzone <= 32767` and
a reading `mv` whose offset `mv - mv_mid`, value after inversion and final
quotient fit in `int16` and whose product with `scale_multiplier` fits in
`int32`, the value lines 75-92 compute equals the spec's five-step
`condition(mv, profile)`; and the reading `mv_mid` is conditioned to 0. -/
theorem C1_conditioned_eq_spec (p : analog_input_io_channel) (mv : Int)
    (_hdiv : p.scale_divisor ≠ 0) (hdz : p.mv_deadzone ≤ 32767)
    (hoff : fits16 (spec_offset p mv))
    (hinv : fits16 (spec_invert p (spec_clamp p (spec_deadzone p (spec_offset p mv)))))
    (hmul : fits32 (spec_invert p (spec_clamp p (spec_deadzone p (spec_offset p mv)))
      * p.scale_multiplier))
    (hquo : fits16 (condition_spec mv p)) :
    conditioned p mv = condition_spec mv p ∧ conditioned p p.mv_mid = 0 := by
  exact ⟨conditioned_eq_spec_of_fits p mv hdz hoff hinv hmul hquo, conditioned_at_mid p⟩

/-- C1 witness: the scenario profile with an inverted, rescaled channel at
reading 1900. -/
theorem C1_conditioned_eq_spec_witness :
    conditioned
      { mv_mid := 1650, mv_deadzone := 50, mv_min_max := 1000, invert := true,
        scale_multiplier := 3, scale_divisor := 2, report_on_change_only := true,
        evt_type := 2, input_code := 0 } 1900
      = condition_spec 1900
        { mv_mid := 1650, mv_deadzone := 50, mv_min_max := 1000, invert := true,
          scale_multiplier := 3, scale_divisor := 2, report_on_change_only := true,
          evt_type := 2, input_code := 0 }
    ∧ conditioned
      { mv_mid := 1650, mv_deadzone := 50, mv_min_max := 1000, invert := true,
        scale_multiplier := 3, scale_divisor := 2, report_on_change_only := true,
        evt_type := 2, input_code := 0 } 1650 = 0 :=
  C1_conditioned_eq_spec _ 1900 (by decide) (by decide) (by decide) (by decide) (by decide)
    (by decide)

/-- C2 (evaluation at the scenario): the three readings are conditioned to
0, 0 and 50, but the first tick does not return: no channel is reportable, so
the sync scan steps its `uint8_t` index from 0 to 255 and reads `delta[255]`
outside the one-slot array.  The run of the three ticks ends there, without
an event. -/
theorem C2_scenario_first_tick_out_of_bounds :
    conditioned scenario_profile 1650 = 0 ∧ conditioned scenario_profile 1700 = 0 ∧
    conditioned scenario_profile 1750 = 50 ∧
    (analog_input_report_data 0 ⟨[scenario_profile]⟩ (ready_data 1)
      (good_tick 0 (fun _ => 1650))).ret = call_end.out_of_bounds 255 ∧
    (analog_input_report_data 0 ⟨[scenario_profile]⟩ (ready_data 1)
      (good_tick 0 (fun _ => 1650))).events = [] ∧
    (run_steps 0 ⟨[scenario_profile]⟩ (ready_data 1)
      [dev_step.tick (good_tick 0 (fun _ => 1650)), dev_step.tick (good_tick 10 (fun _ => 1700)),
       dev_step.tick (good_tick 20 (fun _ => 1750))]).map (fun o => (o.ret, o.events))
      = [(call_end.out_of_bounds 255, [])] := by
  decide

set_option maxRecDepth 100000 in
/-- C3 (evaluation at 129 channels): with channel 128 the only reportable
channel, the tick returns 0 and emits the one event of channel 128 with
`sync = false`, because `idx_to_sync` is an `int8_t` and holds -128; with
three channels all reportable, only channel 2 is sync. -/
theorem C3_sync_lost_at_index_128 :
    (analog_input_report_data 0 ⟨List.replicate 129 scenario_profile⟩ (ready_data 129)
      (good_tick 0 (fun i => if i = 128 then 1701 else 1650))).ret = call_end.returned 0 ∧
    (analog_input_report_data 0 ⟨List.replicate 129 scenario_profile⟩ (ready_data 129)
      (good_tick 0 (fun i => if i = 128 then 1701 else 1650))).events
      = [{ channel := 128, evt_type := 2, input_code := 0, value := 1, sync := false }] ∧
    wrap8 128 = -128 ∧
    (analog_input_report_data 0 ⟨List.replicate 3 scenario_profile⟩ (ready_data 3)
      (good_tick 0 (fun i => 1750 + i))).events
      = [{ channel := 0, evt_type := 2, input_code := 0, value := 50, sync := false },
         { channel := 1, evt_type := 2, input_code := 0, value := 51, sync := false },
         { channel := 2, evt_type := 2, input_code := 0, value := 52, sync := true }] := by
  decide

/-- C4: for an on-change channel `i`, if a tick emits an event with value `v`
for the channel and the next tick conditions the channel's reading to `v`
again, the next tick emits no event for the channel. -/
theorem C4_on_change_no_repeat (I : Nat) (cfg : analog_input_config) (d : analog_input_data)
    (inp1 inp2 : tick_input) (i : Nat) (ch : analog_input_io_channel) (v : Int)
    (e : input_event) (hwf : well_formed cfg d)
    (hch : cfg.io_channels[i]? = some ch) (hoc : ch.report_on_change_only = true)
    (he : e ∈ (analog_input_report_data I cfg d inp1).events)
    (hei : e.channel = i) (hev : e.value = v)
    (hv : conditioned ch (inp2.mv i) = v) :
    events_of i (analog_input_report_data I cfg
      (analog_input_report_data I cfg d inp1).data inp2).events = [] := by
  have hwf1 := tick_well_formed I cfg d inp1 hwf
  have hprev : (analog_input_report_data I cfg d inp1).data.prev.getD i 0 = v := by
    rcases tick_cases I cfg d inp1 with ⟨e0, _⟩ | ⟨_, _, e1⟩
    · rw [e0] at he
      exact absurd he (List.not_mem_nil e)
    · rw [e1] at he ⊢
      rcases report_phase_cases I cfg d inp1.now
          (sample_loop inp1.mv cfg.io_channels 0 d.delta) with
        ⟨e0, _, _⟩ | ⟨idx, _, _, _, _, e0, _, e2⟩
      · rw [e0] at he
        exact absurd he (List.not_mem_nil e)
      · rw [e0] at he
        obtain ⟨j, c, _, hrep, rfl⟩ := (emit_phase_events I cfg d inp1.now _ idx e).mp he
        have hji : j = i := hei
        subst hji
        rw [e2, (emit_phase_at I cfg d inp1.now _ idx j ch hch
          (by rw [sample_loop_length]; exact hwf.1) hwf.2).2, if_pos ⟨hrep, hoc⟩]
        exact hev
  apply tick_no_event I cfg _ inp2 i ch hch
  rw [sample_loop_channel cfg _ inp2.mv i ch hch hwf1.1, hoc, if_pos rfl, hv, hprev]

/-- C4 witness: two on-change channels; the first tick reports 50 on
channel 0, the second tick reads the same value there and a new one on
channel 1. -/
theorem C4_on_change_no_repeat_witness :
    events_of 0 (analog_input_report_data 0 ⟨[scenario_profile, scenario_profile]⟩
      (analog_input_report_data 0 ⟨[scenario_profile, scenario_profile]⟩ (ready_data 2)
        (good_tick 0 (fun _ => 1750))).data
      (good_tick 10 (fun k => if k = 1 then 1760 else 1750))).events = [] :=
  C4_on_change_no_repeat 0 ⟨[scenario_profile, scenario_profile]⟩ (ready_data 2)
    (good_tick 0 (fun _ => 1750)) (good_tick 10 (fun k => if k = 1 then 1760 else 1750))
    0 scenario_profile 50
    { channel := 0, evt_type := 2, input_code := 0, value := 50, sync := false }
    ⟨rfl, rfl⟩ rfl rfl (by decide) rfl rfl (by decide)

/-- C5 (as stated, refuted): two channels, channel 0 in accumulate mode.
While the device is inactive a tick conditions channel 0 to -5 and stores it;
after `active_set_value(true)` a tick conditions channel 0 to 5, the stored
sum is 0, and the tick (active, no rate limiting, returning 0) emits the event
of channel 1 only.  With a report interval of 10, a first tick at time 10 is
not suppressed, but the purge clears the stored value and nothing is
emitted. -/
theorem C5_counterexample :
    reachable 0 ⟨[accumulate_profile, scenario_profile]⟩
      (do_step 0 ⟨[accumulate_profile, scenario_profile]⟩
        (do_step 0 ⟨[accumulate_profile, scenario_profile]⟩
          { ready_data 2 with actived := false }
          (dev_step.tick (good_tick 0 (fun k => if k = 0 then 1595 else 1650)))).data
        (dev_step.set_active true)).data ∧
    (do_step 0 ⟨[accumulate_profile, scenario_profile]⟩
        (do_step 0 ⟨[accumulate_profile, scenario_profile]⟩
          { ready_data 2 with actived := false }
          (dev_step.tick (good_tick 0 (fun k => if k = 0 then 1595 else 1650)))).data
        (dev_step.set_active true)).data
      = { ready_data 2 with delta := [-5, 0] } ∧
    conditioned accumulate_profile 1705 = 5 ∧
    analog_input_report_data 0 ⟨[accumulate_profile, scenario_profile]⟩
        { ready_data 2 with delta := [-5, 0] }
        (good_tick 10 (fun k => if k = 0 then 1705 else 1750))
      = { data := { ready_data 2 with delta := [0, 0], prev := [0, 50] }
          events := [{ channel := 1, evt_type := 2, input_code := 0, value := 50, sync := true }]
          ret := call_end.returned 0 } ∧
    ¬ suppress_due 10 (ready_data 1) 10 ∧
    (analog_input_report_data 10 ⟨[accumulate_profile]⟩ (ready_data 1)
        (good_tick 10 (fun _ => 1705))).events = [] := by
  refine ⟨?_, by decide, by decide, by decide, by decide, by decide⟩
  exact reachable.step _ (dev_step.set_active true) 0
    (reachable.step _ (dev_step.tick (good_tick 0 (fun k => if k = 0 then 1595 else 1650))) 0
      (reachable.init _ (by decide) ⟨rfl, rfl⟩) (by decide))
    (by decide)

/-- C5 (amended): for an accumulate-mode channel `i` and a reachable state, a
tick of a ready, active device whose acquisition succeeds, which is neither
purged (line 111) nor suppressed (line 122), and for which the accumulated
value `delta[i] + v` (as `int32`) is nonzero, returns 0 and emits an event
for channel `i` carrying that accumulated value. -/
theorem C5_accumulate_emits (I : Nat) (cfg : analog_input_config) (d : analog_input_data)
    (inp : tick_input) (i : Nat) (ch : analog_input_io_channel)
    (hreach : reachable I cfg d)
    (hch : cfg.io_channels[i]? = some ch) (hacc : ch.report_on_change_only = false)
    (hready : d.ready = true) (hact : d.actived = true)
    (herr : ¬ inp.err < 0) (hsig : inp.signaled = true)
    (hpurge : ¬ purge_due I d inp.now) (hsupp : ¬ suppress_due I d inp.now)
    (hnz : wrap32 (d.delta.getD i 0 + conditioned ch (inp.mv i)) ≠ 0) :
    (analog_input_report_data I cfg d inp).ret = call_end.returned 0 ∧
    ∃ e ∈ (analog_input_report_data I cfg d inp).events,
      e.channel = i ∧ e.value = wrap32 (d.delta.getD i 0 + conditioned ch (inp.mv i)) := by
  obtain ⟨hlen, hwf, hz⟩ := reachable_invariant I cfg d hreach
  have hi := channel_index_lt hch
  have hdl : (sample_loop inp.mv cfg.io_channels 0 d.delta).length = cfg.io_channels_len := by
    rw [sample_loop_length]
    exact hwf.1
  have hdv : (after_purge I cfg d inp.now
      (sample_loop inp.mv cfg.io_channels 0 d.delta)).getD i 0
      = wrap32 (d.delta.getD i 0 + conditioned ch (inp.mv i)) := by
    rw [after_purge_getD _ _ _ _ _ _ hi, if_neg hpurge,
      sample_loop_channel cfg d inp.mv i ch hch hwf.1, hacc]
    simp
  have hpv : (after_purge I cfg d inp.now d.prev).getD i 0 = 0 := by
    rw [after_purge_getD _ _ _ _ _ _ hi, if_neg hpurge]
    exact hz i ch hch hacc
  have hrep : reportable (after_purge I cfg d inp.now
      (sample_loop inp.mv cfg.io_channels 0 d.delta)) (after_purge I cfg d inp.now d.prev) i := by
    unfold reportable
    rw [hdv, hpv]
    exact hnz
  obtain ⟨j, _, hscan, _, _⟩ := sync_scan_found cfg.io_channels_len _ _ hlen
    (by rw [after_purge_length]; exact hdl) (by rw [after_purge_length]; exact hwf.2)
    ⟨i, hi, hrep⟩
  obtain ⟨hret, hev, _, _⟩ := report_phase_found I cfg d inp.now _ j hsupp hact hscan
  rw [tick_eq_report_phase I cfg d inp hready herr hsig]
  refine ⟨hret, event_for ch i (wrap32 (d.delta.getD i 0 + conditioned ch (inp.mv i)))
    (wrap8 (j : Int)), ?_, rfl, rfl⟩
  rw [hev, emit_phase_events]
  exact ⟨i, ch, hch, hrep, by rw [hdv]⟩

/-- C5 witness: report interval 10.  A tick at time 5 is suppressed and
stores 7; the tick at time 12 is neither purged nor suppressed, adds 5 and
emits the sum 12. -/
theorem C5_accumulate_emits_witness :
    (analog_input_report_data 10 ⟨[accumulate_profile]⟩
      (do_step 10 ⟨[accumulate_profile]⟩ (ready_data 1)
        (dev_step.tick (good_tick 5 (fun _ => 1707)))).data
      (good_tick 12 (fun _ => 1705))).ret = call_end.returned 0 ∧
    ∃ e ∈ (analog_input_report_data 10 ⟨[accumulate_profile]⟩
        (do_step 10 ⟨[accumulate_profile]⟩ (ready_data 1)
          (dev_step.tick (good_tick 5 (fun _ => 1707)))).data
        (good_tick 12 (fun _ => 1705))).events,
      e.channel = 0 ∧
      e.value = wrap32 ((do_step 10 ⟨[accumulate_profile]⟩ (ready_data 1)
          (dev_step.tick (good_tick 5 (fun _ => 1707)))).data.delta.getD 0 0
        + conditioned accumulate_profile 1705) :=
  C5_accumulate_emits 10 ⟨[accumulate_profile]⟩
    (do_step 10 ⟨[accumulate_profile]⟩ (ready_data 1)
      (dev_step.tick (good_tick 5 (fun _ => 1707)))).data
    (good_tick 12 (fun _ => 1705)) 0 accumulate_profile
    (reachable.step _ (dev_step.tick (good_tick 5 (fun _ => 1707))) 0
      (reachable.init _ (by decide) ⟨rfl, rfl⟩) (by decide))
    rfl rfl (by decide) (by decide) (by decide) rfl (by decide) (by decide) (by decide)

/-- C6: from zero-initialised arrays, along every sequence of sampling
cycles and control operations, every executed step
leaves `prev[i] == 0` for an accumulate-mode channel `i`; and if every cycle
of the sequence conditions the channel's reading to 0, every executed step
leaves `delta[i] == 0` and emits no event for the channel.  (A run ends with
the first cycle that does not return.) -/
theorem C6_accumulate_prev_zero (I : Nat) (cfg : analog_input_config) (d : analog_input_data)
    (steps : List dev_step) (i : Nat) (ch : analog_input_io_channel)
    (hinit : zero_initialised cfg d)
    (hch : cfg.io_channels[i]? = some ch) (hacc : ch.report_on_change_only = false)
    (o : tick_output) (ho : o ∈ run_steps I cfg d steps) :
    o.data.prev.getD i 0 = 0 ∧
    ((∀ inp, dev_step.tick inp ∈ steps → conditioned ch (inp.mv i) = 0) →
      o.data.delta.getD i 0 = 0 ∧ events_of i o.events = []) := by
  obtain ⟨hwf, hz⟩ := zero_initialised_invariant cfg d hinit
  refine ⟨(run_steps_invariant I cfg steps d hwf hz o ho).2 i ch hch hacc, fun hv => ?_⟩
  have hd0 : d.delta.getD i 0 = 0 := by
    rw [hinit.1]
    exact getD_replicate_zero _ _
  exact run_steps_zero I cfg i ch hch hacc steps d hwf hz hd0 hv o ho

/-- C6 witness: an accumulate channel 0 at rest next to an on-change
channel 1 that moves on both ticks; after the second tick `prev[0]` and
`delta[0]` are 0 and channel 0 has no event. -/
theorem C6_accumulate_prev_zero_witness :
    (do_step 0 ⟨[accumulate_profile, scenario_profile]⟩
      (do_step 0 ⟨[accumulate_profile, scenario_profile]⟩ (ready_data 2)
        (dev_step.tick (good_tick 0 (fun k => if k = 0 then 1650 else 1750)))).data
      (dev_step.tick (good_tick 10 (fun k => if k = 0 then 1660 else 1760)))).data.prev.getD 0 0
      = 0 ∧
    (do_step 0 ⟨[accumulate_profile, scenario_profile]⟩
      (do_step 0 ⟨[accumulate_profile, scenario_profile]⟩ (ready_data 2)
        (dev_step.tick (good_tick 0 (fun k => if k = 0 then 1650 else 1750)))).data
      (dev_step.tick (good_tick 10 (fun k => if k = 0 then 1660 else 1760)))).data.delta.getD 0 0
      = 0 ∧
    events_of 0 (do_step 0 ⟨[accumulate_profile, scenario_profile]⟩
      (do_step 0 ⟨[accumulate_profile, scenario_profile]⟩ (ready_data 2)
        (dev_step.tick (good_tick 0 (fun k => if k = 0 then 1650 else 1750)))).data
      (dev_step.tick (good_tick 10 (fun k => if k = 0 then 1660 else 1760)))).events = [] :=
  have h := C6_accumulate_prev_zero 0 ⟨[accumulate_profile, scenario_profile]⟩ (ready_data 2)
    [dev_step.tick (good_tick 0 (fun k => if k = 0 then 1650 else 1750)),
     dev_step.tick (good_tick 10 (fun k => if k = 0 then 1660 else 1760))]
    0 accumulate_profile ⟨rfl, rfl⟩ rfl rfl
    (do_step 0 ⟨[accumulate_profile, scenario_profile]⟩
      (do_step 0 ⟨[accumulate_profile, scenario_profile]⟩ (ready_data 2)
        (dev_step.tick (good_tick 0 (fun k => if k = 0 then 1650 else 1750)))).data
      (dev_step.tick (good_tick 10 (fun k => if k = 0 then 1660 else 1760))))
    (List.mem_cons_of_mem _ (List.mem_cons_self _ _))
  ⟨h.1, h.2 (by
    intro inp hin
    simp only [List.mem_cons, List.mem_singleton, List.not_mem_nil, or_false] at hin
    rcases hin with hin | hin <;> (injection hin with hin; subst hin; decide))⟩

/-- C7 (as stated, refuted): on a device that is not ready and not enabled,
`sample_hz_set_value` returns `-EBUSY` and leaves `sampling_hz` as it was, so
"Ok with `sampling_hz = hz` while `enabled == false`" does not hold for every
device state. -/
theorem C7_counterexample :
    (fresh_data 1).enabled = false ∧
    (sample_hz_set_value (fresh_data 1) 100).ret = EBUSY_neg ∧
    (sample_hz_set_value (fresh_data 1) 100).ret ≠ 0 ∧
    (sample_hz_set_value (fresh_data 1) 100).data.sampling_hz = 0 := by
  decide

/-- C7 (amended): while `enabled == true`, `sample_hz_set_value` returns
`-EBUSY`, issues no timer operation and leaves the whole state unchanged;
while `enabled == false` on a ready device it returns 0 with
`sampling_hz = hz` and every other field unchanged; on a device that is not
ready it returns `-EBUSY` and leaves the whole state unchanged. -/
theorem C7_sample_hz_set_value (d : analog_input_data) (hz : Nat) :
    (d.enabled = true →
      (sample_hz_set_value d hz).ret = EBUSY_neg ∧ (sample_hz_set_value d hz).data = d ∧
      (sample_hz_set_value d hz).timer = []) ∧
    (d.enabled = false → d.ready = true →
      (sample_hz_set_value d hz).ret = 0 ∧
      (sample_hz_set_value d hz).data = { d with sampling_hz := hz } ∧
      (sample_hz_set_value d hz).timer = []) ∧
    (d.ready = false →
      (sample_hz_set_value d hz).ret = EBUSY_neg ∧ (sample_hz_set_value d hz).data = d ∧
      (sample_hz_set_value d hz).timer = []) := by
  refine ⟨fun he => ?_, fun he hr => ?_, fun hr => ?_⟩
  · unfold sample_hz_set_value
    by_cases hr : d.ready = false <;> simp [hr, he]
  · simp [sample_hz_set_value, he, hr]
  · simp [sample_hz_set_value, hr]

/-- C7 witness: an enabled ready device is refused, a disabled ready device
takes the new rate. -/
theorem C7_sample_hz_set_value_witness :
    ((sample_hz_set_value { fresh_data 2 with ready := true, enabled := true } 250).ret
        = EBUSY_neg ∧
      (sample_hz_set_value { fresh_data 2 with ready := true, enabled := true } 250).data
        = { fresh_data 2 with ready := true, enabled := true } ∧
      (sample_hz_set_value { fresh_data 2 with ready := true, enabled := true } 250).timer = []) ∧
    ((sample_hz_set_value { fresh_data 2 with ready := true } 250).ret = 0 ∧
      (sample_hz_set_value { fresh_data 2 with ready := true } 250).data
        = { fresh_data 2 with ready := true, sampling_hz := 250 } ∧
      (sample_hz_set_value { fresh_data 2 with ready := true } 250).timer = []) :=
  ⟨(C7_sample_hz_set_value { fresh_data 2 with ready := true, enabled := true } 250).1 rfl,
   (C7_sample_hz_set_value { fresh_data 2 with ready := true } 250).2.1 rfl rfl⟩

/-- C8 (as stated, refuted): on a device that is not ready,
`active_set_value` is not rejected: it returns 0 and sets `actived`. -/
theorem C8_counterexample :
    (fresh_data 1).ready = false ∧
    (active_set_value (fresh_data 1) true).ret = 0 ∧
    (active_set_value (fresh_data 1) true).data.actived = true ∧
    (active_set_value (fresh_data 1) true).data ≠ fresh_data 1 := by
  decide

/-- C8 (amended): when `ready == false`, `enable_set_value` and
`sample_hz_set_value` return `-EBUSY`, issue no timer operation and leave the
state unchanged, for every argument; `active_set_value` has no readiness
gate: it returns 0 and leaves the state with `actived` equal to its argument
and every other field unchanged. -/
theorem C8_not_ready (d : analog_input_data) (hr : d.ready = false) (b : Bool) (hz : Nat) :
    ((enable_set_value d b).ret = EBUSY_neg ∧ (enable_set_value d b).data = d ∧
      (enable_set_value d b).timer = []) ∧
    ((sample_hz_set_value d hz).ret = EBUSY_neg ∧ (sample_hz_set_value d hz).data = d ∧
      (sample_hz_set_value d hz).timer = []) ∧
    ((active_set_value d b).ret = 0 ∧ (active_set_value d b).data = { d with actived := b } ∧
      (active_set_value d b).timer = []) := by
  refine ⟨?_, ?_, ?_⟩
  · simp [enable_set_value, hr]
  · simp [sample_hz_set_value, hr]
  · unfold active_set_value
    by_cases ha : d.actived = b
    · subst ha
      simp
    · simp [ha]

/-- C8 witness: the three operations on a device that is not ready. -/
theorem C8_not_ready_witness :
    ((enable_set_value (fresh_data 2) true).ret = EBUSY_neg ∧
      (enable_set_value (fresh_data 2) true).data = fresh_data 2 ∧
      (enable_set_value (fresh_data 2) true).timer = []) ∧
    ((sample_hz_set_value (fresh_data 2) 100).ret = EBUSY_neg ∧
      (sample_hz_set_value (fresh_data 2) 100).data = fresh_data 2 ∧
      (sample_hz_set_value (fresh_data 2) 100).timer = []) ∧
    ((active_set_value (fresh_data 2) true).ret = 0 ∧
      (active_set_value (fresh_data 2) true).data = { fresh_data 2 with actived := true } ∧
      (active_set_value (fresh_data 2) true).timer = []) :=
  C8_not_ready (fresh_data 2) rfl true 100

/-- C9: on a ready device `enable_set_value x` returns 0; when `enabled == x`
it changes nothing and issues no timer operation; enabling a disabled device
sets `enabled` and starts the timer with delay and period
`K_USEC(1000000 / sampling_hz)` when `sampling_hz != 0` and with `K_NO_WAIT`
for both when `sampling_hz == 0`; disabling an enabled device stops the timer
and clears `enabled`; no other field changes in any case. -/
theorem C9_enable_set_value (d : analog_input_data) (x : Bool) (hr : d.ready = true) :
    (enable_set_value d x).ret = 0 ∧
    (d.enabled = x → (enable_set_value d x).data = d ∧ (enable_set_value d x).timer = []) ∧
    (x = true → d.enabled = false →
      (enable_set_value d x).data = { d with enabled := true } ∧
      (d.sampling_hz ≠ 0 → (enable_set_value d x).timer =
        [timer_op.k_timer_start (k_timeout.K_USEC (1000000 / d.sampling_hz))
          (k_timeout.K_USEC (1000000 / d.sampling_hz))]) ∧
      (d.sampling_hz = 0 → (enable_set_value d x).timer =
        [timer_op.k_timer_start k_timeout.K_NO_WAIT k_timeout.K_NO_WAIT])) ∧
    (x = false → d.enabled = true →
      (enable_set_value d x).data = { d with enabled := false } ∧
      (enable_set_value d x).timer = [timer_op.k_timer_stop]) ∧
    (enable_set_value d x).data = { d with enabled := (enable_set_value d x).data.enabled } ∧
    (enable_set_value d x).data.sampling_hz = d.sampling_hz ∧
    (enable_set_value d x).data.actived = d.actived ∧
    (enable_set_value d x).data.error_count = d.error_count := by
  obtain ⟨r, a, e, hzv, ec, ls, dl, pv, st, rt⟩ := d
  simp only at hr
  subst hr
  unfold enable_set_value
  by_cases he : e = x
  · subst he
    simp
  · cases x with
    | true =>
      have hd : e = false := by simpa using he
      subst hd
      by_cases hz : hzv = 0 <;> simp [hz]
    | false =>
      have hd : e = true := by simpa using he
      subst hd
      simp

/-- C9 witness: enabling a ready device sampling at 250 Hz arms the timer
with 4000 microseconds. -/
theorem C9_enable_set_value_witness :
    (enable_set_value { fresh_data 2 with ready := true, sampling_hz := 250 } true).ret = 0 ∧
    (enable_set_value { fresh_data 2 with ready := true, sampling_hz := 250 } true).timer
      = [timer_op.k_timer_start (k_timeout.K_USEC 4000) (k_timeout.K_USEC 4000)] ∧
    (enable_set_value { fresh_data 2 with ready := true, sampling_hz := 250 } true).data
      = { fresh_data 2 with ready := true, sampling_hz := 250, enabled := true } :=
  ⟨(C9_enable_set_value { fresh_data 2 with ready := true, sampling_hz := 250 } true rfl).1,
   ((C9_enable_set_value { fresh_data 2 with ready := true, sampling_hz := 250 } true
      rfl).2.2.1 rfl rfl).2.1 (by decide),
   ((C9_enable_set_value { fresh_data 2 with ready := true, sampling_hz := 250 } true
      rfl).2.2.1 rfl rfl).1⟩

/-- C10 (as stated, refuted): with threshold 3, four failed cycles take
`error_count` from 0 to 4 and the fourth issues a reset request, which fails;
`error_count` stays at 4 and the device is disabled.  After
`enable_set_value(true)` the next failed cycle takes `error_count` from 4 to
5, both above the threshold, and issues another reset request. -/
theorem C10_counterexample :
    (work_run 0 3 ⟨[scenario_profile]⟩ (ready_data 1)
        [failing_work, failing_work, failing_work, failing_work]).map
      (fun r => (r.pre.error_count, r.out.resets, r.out.data.error_count, r.out.data.enabled))
      = [(0, 0, 1, true), (1, 0, 2, true), (2, 0, 3, true), (3, 1, 4, false)] ∧
    (enable_set_value { ready_data 1 with error_count := 4, enabled := false } true).ret = 0 ∧
    (enable_set_value { ready_data 1 with error_count := 4, enabled := false } true).data
      = { ready_data 1 with error_count := 4 } ∧
    cycle_failed 0 ⟨[scenario_profile]⟩ { ready_data 1 with error_count := 4 }
      failing_work.tick ∧
    (3 : Nat) < ({ ready_data 1 with error_count := 4 } : analog_input_data).error_count ∧
    (sampling_work_handler 0 3 ⟨[scenario_profile]⟩ { ready_data 1 with error_count := 4 }
      failing_work).resets = 1 ∧
    (sampling_work_handler 0 3 ⟨[scenario_profile]⟩ { ready_data 1 with error_count := 4 }
      failing_work).data.error_count = 5 := by
  decide

/-- C10 (amended): one run of `sampling_work_handler` issues a reset request
exactly when the cycle fails and the incremented `error_count` (a `uint32`,
so `(error_count + 1) mod 2^32`) exceeds `T`, whatever `error_count` was
before; a successful reset sets `error_count` to 0.  Hence in every sequence
of cycles that starts with `error_count <= T` and in which no reset request
fails, `error_count <= T` holds before every cycle and a reset request is
issued exactly by the failed cycles that take `error_count` from `T` to
`T + 1`, one per crossing.  A failed reset leaves the incremented
`error_count`, which is above `T`; a failed cycle that starts with
`error_count` above `T` and below the `uint32` maximum issues another reset
request; at the `uint32` maximum the count wraps to 0 and no reset request is
issued. -/
theorem C10_reset_per_crossing (I T : Nat) (cfg : analog_input_config)
    (d : analog_input_data) (ws : List work_input)
    (h0 : d.error_count ≤ T) (hok : ∀ w ∈ ws, ¬ w.reset_err < 0) :
    (∀ (d1 : analog_input_data) (w : work_input),
      (sampling_work_handler I T cfg d1 w).resets =
        (if cycle_failed I cfg d1 w.tick ∧ T < (d1.error_count + 1) % 4294967296
          then 1 else 0) ∧
      (sampling_work_handler I T cfg d1 w).data.error_count =
        (if cycle_failed I cfg d1 w.tick then
          (if T < (d1.error_count + 1) % 4294967296 ∧ ¬ w.reset_err < 0 then 0
           else (d1.error_count + 1) % 4294967296)
         else if (sampling_work_handler I T cfg d1 w).completed then 0
         else d1.error_count)) ∧
    (∀ r ∈ work_run I T cfg d ws,
      r.pre.error_count ≤ T ∧
      (r.out.resets = 1 ↔
        cycle_failed I cfg r.pre r.inp.tick ∧ r.pre.error_count = T ∧ T + 1 < 4294967296) ∧
      (r.out.resets = 0 ∨ r.out.resets = 1) ∧
      (r.out.resets = 1 → r.out.data.error_count = 0)) ∧
    (∀ (d1 : analog_input_data) (w : work_input),
      cycle_failed I cfg d1 w.tick → T < (d1.error_count + 1) % 4294967296 →
      w.reset_err < 0 →
      (sampling_work_handler I T cfg d1 w).resets = 1 ∧
      (sampling_work_handler I T cfg d1 w).data.error_count
        = (d1.error_count + 1) % 4294967296 ∧
      T < (sampling_work_handler I T cfg d1 w).data.error_count) ∧
    (∀ (d1 : analog_input_data) (w : work_input),
      cycle_failed I cfg d1 w.tick → T < d1.error_count →
      d1.error_count + 1 < 4294967296 →
      (sampling_work_handler I T cfg d1 w).resets = 1) ∧
    (∀ (d1 : analog_input_data) (w : work_input),
      cycle_failed I cfg d1 w.tick → d1.error_count = 4294967295 →
      (sampling_work_handler I T cfg d1 w).resets = 0 ∧
      (sampling_work_handler I T cfg d1 w).data.error_count = 0) := by
  refine ⟨fun d1 w => handler_resets I T cfg d1 w, ?_, ?_, ?_, ?_⟩
  · induction ws generalizing d with
    | nil => intro r hr; simp [work_run] at hr
    | cons w rest ih =>
      intro r hr
      have hw : ¬ w.reset_err < 0 := hok w (List.mem_cons_self _ _)
      obtain ⟨hres, hcnt⟩ := handler_resets I T cfg d w
      have hnext : (sampling_work_handler I T cfg d w).data.error_count ≤ T := by
        rw [hcnt]
        split_ifs <;> omega
      have hhere : (sampling_work_handler I T cfg d w).resets = 1 ↔
          cycle_failed I cfg d w.tick ∧ d.error_count = T ∧ T + 1 < 4294967296 := by
        rw [hres]
        constructor
        · intro h
          split_ifs at h with hc
          refine ⟨hc.1, ?_⟩
          have := hc.2
          omega
        · rintro ⟨hf, he, hT⟩
          have : T < (d.error_count + 1) % 4294967296 := by omega
          rw [if_pos ⟨hf, this⟩]
      simp only [work_run, List.mem_cons] at hr
      rcases hr with rfl | hr
      · refine ⟨h0, hhere, ?_, ?_⟩
        · show (sampling_work_handler I T cfg d w).resets = 0 ∨ _
          rw [hres]
          split_ifs
          · exact Or.inr rfl
          · exact Or.inl rfl
        · intro h1
          have hc := hhere.mp h1
          show (sampling_work_handler I T cfg d w).data.error_count = 0
          rw [hcnt, if_pos hc.1, if_pos ⟨by omega, hw⟩]
      · split_ifs at hr with hcomp
        · exact ih _ hnext (fun w' hw' => hok w' (List.mem_cons_of_mem _ hw')) r hr
        · simp at hr
  · intro d1 w hf ht hr
    obtain ⟨hres, hcnt⟩ := handler_resets I T cfg d1 w
    have hno : ¬ (T < (d1.error_count + 1) % 4294967296 ∧ ¬ w.reset_err < 0) :=
      fun h => h.2 hr
    rw [hres, hcnt, if_pos ⟨hf, ht⟩, if_pos hf, if_neg hno]
    exact ⟨rfl, rfl, ht⟩
  · intro d1 w hf ht hlt
    have hgt : T < (d1.error_count + 1) % 4294967296 := by omega
    rw [(handler_resets I T cfg d1 w).1, if_pos ⟨hf, hgt⟩]
  · intro d1 w hf hmax
    obtain ⟨hres, hcnt⟩ := handler_resets I T cfg d1 w
    have hwrap : (d1.error_count + 1) % 4294967296 = 0 := by omega
    have hno1 : ¬ (cycle_failed I cfg d1 w.tick ∧ T < (d1.error_count + 1) % 4294967296) := by
      rw [hwrap]
      exact fun h => Nat.not_lt_zero T h.2
    have hno2 : ¬ (T < (d1.error_count + 1) % 4294967296 ∧ ¬ w.reset_err < 0) := by
      rw [hwrap]
      exact fun h => Nat.not_lt_zero T h.1
    rw [hres, hcnt, if_neg hno1, if_pos hf, if_neg hno2, hwrap]
    exact ⟨rfl, rfl⟩

/-- C10 witness: threshold 2, `error_count` 2: a failed cycle crosses the
threshold, issues the reset request, which succeeds, and `error_count`
returns to 0.  Threshold 3, `error_count` 4 (left by a failed reset): a failed
cycle issues another reset request, and with the reset failing again
`error_count` is 5. -/
theorem C10_reset_per_crossing_witness :
    (sampling_work_handler 0 2 ⟨[scenario_profile]⟩ { ready_data 1 with error_count := 2 }
      failing_work_reset_ok).resets = 1 ∧
    (sampling_work_handler 0 2 ⟨[scenario_profile]⟩ { ready_data 1 with error_count := 2 }
      failing_work_reset_ok).data.error_count = 0 ∧
    (sampling_work_handler 0 3 ⟨[scenario_profile]⟩ { ready_data 1 with error_count := 4 }
      failing_work).resets = 1 ∧
    (sampling_work_handler 0 3 ⟨[scenario_profile]⟩ { ready_data 1 with error_count := 4 }
      failing_work).data.error_count = (4 + 1) % 4294967296 :=
  have h := (C10_reset_per_crossing 0 2 ⟨[scenario_profile]⟩
    { ready_data 1 with error_count := 2 } [failing_work_reset_ok] (by decide)
    (by intro w hw; simp only [List.mem_singleton] at hw; subst hw; decide)).2.1
    { pre := { ready_data 1 with error_count := 2 }, inp := failing_work_reset_ok,
      out := sampling_work_handler 0 2 ⟨[scenario_profile]⟩
        { ready_data 1 with error_count := 2 } failing_work_reset_ok }
    (List.mem_cons_self _ _)
  have g := C10_reset_per_crossing 0 3 ⟨[scenario_profile]⟩
    { ready_data 1 with error_count := 3 } [] (by decide)
    (by intro w hw; exact absurd hw (List.not_mem_nil w))
  ⟨h.2.1.mpr ⟨by decide, rfl, by decide⟩, h.2.2.2 (h.2.1.mpr ⟨by decide, rfl, by decide⟩),
   g.2.2.2.1 { ready_data 1 with error_count := 4 } failing_work (by decide) (by decide)
     (by decide),
   (g.2.2.1 { ready_data 1 with error_count := 4 } failing_work (by decide) (by decide)
     (by decide)).2.1⟩

/-- C11 (evaluation): no path of `sampling_work_handler` writes
`last_successful_read`.  A ready device with `last_successful_read == 0` and
`error_count == 2` runs a cycle at time 1000 that succeeds (returns 0 and
reports 50): afterwards `error_count == 0`, but `last_successful_read` is
still 0, not 1000. -/
theorem C11_last_successful_read_not_refreshed :
    (∀ (I T : Nat) (cfg : analog_input_config) (d : analog_input_data) (w : work_input),
      (sampling_work_handler I T cfg d w).data.last_successful_read
        = d.last_successful_read) ∧
    (analog_input_report_data 0 ⟨[scenario_profile]⟩ { ready_data 1 with error_count := 2 }
      (good_tick 1000 (fun _ => 1750))).ret = call_end.returned 0 ∧
    (sampling_work_handler 0 3 ⟨[scenario_profile]⟩ { ready_data 1 with error_count := 2 }
      { tick := good_tick 1000 (fun _ => 1750), reset_err := 0 }).data.error_count = 0 ∧
    (sampling_work_handler 0 3 ⟨[scenario_profile]⟩ { ready_data 1 with error_count := 2 }
      { tick := good_tick 1000 (fun _ => 1750), reset_err := 0 }).data.last_successful_read
      = 0 := by
  refine ⟨fun I T cfg d w => ?_, by decide, by decide, by decide⟩
  unfold sampling_work_handler
  rw [handle_result_last_successful_read]
  exact (tick_frame I cfg d w.tick).2.2.2.2.2

/-- C12: after a failed cycle `sampling_work_handler` does one of three
things, with `n` the incremented `error_count` (a `uint32`, so
`(error_count + 1) mod 2^32`, which is `error_count + 1` below the type's
maximum).  If `n > T` and the reset request fails: one reset request, the
timer stopped, `enabled = false`, `error_count = n`.  If `n > T` and the reset
succeeds: one reset request, no timer operation, `error_count = 0`, `enabled`
and every other field unchanged.  If `n <= T`: no reset request, no timer
operation, `error_count = n` and every other field unchanged.  No event is
emitted in any case. -/
theorem C12_failed_cycle (I T : Nat) (cfg : analog_input_config) (d : analog_input_data)
    (w : work_input) (hfail : cycle_failed I cfg d w.tick) :
    (T < (d.error_count + 1) % 4294967296 → w.reset_err < 0 →
      sampling_work_handler I T cfg d w =
        { data := { d with error_count := (d.error_count + 1) % 4294967296, enabled := false }
          events := [], timer := [timer_op.k_timer_stop], resets := 1, completed := true }) ∧
    (T < (d.error_count + 1) % 4294967296 → ¬ w.reset_err < 0 →
      sampling_work_handler I T cfg d w =
        { data := { d with error_count := 0 }
          events := [], timer := [], resets := 1, completed := true }) ∧
    (¬ T < (d.error_count + 1) % 4294967296 →
      sampling_work_handler I T cfg d w =
        { data := { d with error_count := (d.error_count + 1) % 4294967296 }
          events := [], timer := [], resets := 0, completed := true }) ∧
    (d.error_count + 1 < 4294967296 →
      (d.error_count + 1) % 4294967296 = d.error_count + 1) := by
  obtain ⟨hd, he⟩ := cycle_failed_unchanged I cfg d w.tick hfail
  have h := handle_result_failed T (analog_input_report_data I cfg d w.tick) w.reset_err hfail
  rw [hd, he] at h
  exact ⟨h.1, h.2.1, h.2.2, fun hlt => Nat.mod_eq_of_lt hlt⟩

/-- C12 witness: threshold 3; from `error_count` 1 a failed cycle only
counts; from `error_count` 3 a failed cycle with a failing reset stops the
timer and disables the device, and with a succeeding reset clears the
count. -/
theorem C12_failed_cycle_witness :
    sampling_work_handler 0 3 ⟨[scenario_profile]⟩ { ready_data 1 with error_count := 1 }
        failing_work =
      { data := { ready_data 1 with error_count := (1 + 1) % 4294967296 }
        events := [], timer := [], resets := 0, completed := true } ∧
    sampling_work_handler 0 3 ⟨[scenario_profile]⟩ { ready_data 1 with error_count := 3 }
        failing_work =
      { data := { ready_data 1 with error_count := (3 + 1) % 4294967296, enabled := false }
        events := [], timer := [timer_op.k_timer_stop], resets := 1, completed := true } ∧
    sampling_work_handler 0 3 ⟨[scenario_profile]⟩ { ready_data 1 with error_count := 3 }
        failing_work_reset_ok =
      { data := { ready_data 1 with error_count := 0 }
        events := [], timer := [], resets := 1, completed := true } :=
  ⟨(C12_failed_cycle 0 3 ⟨[scenario_profile]⟩ { ready_data 1 with error_count := 1 }
      failing_work (by decide)).2.2.1 (by decide),
   (C12_failed_cycle 0 3 ⟨[scenario_profile]⟩ { ready_data 1 with error_count := 3 }
      failing_work (by decide)).1 (by decide) (by decide),
   (C12_failed_cycle 0 3 ⟨[scenario_profile]⟩ { ready_data 1 with error_count := 3 }
      failing_work_reset_ok (by decide)).2.1 (by decide) (by decide)⟩

/-- C13 (as stated, refuted): report interval 10, one accumulate channel.
The tick at time 5 emits nothing and stores 7.  The tick at time 8 comes 3
after it, less than the interval, and the previous tick emitted no event, yet
nothing is purged: `delta[0]` is 12 after it. -/
theorem C13_counterexample :
    (do_step 10 ⟨[accumulate_profile]⟩ (ready_data 1)
      (dev_step.tick (good_tick 5 (fun _ => 1707)))).events = [] ∧
    (do_step 10 ⟨[accumulate_profile]⟩ (ready_data 1)
      (dev_step.tick (good_tick 5 (fun _ => 1707)))).data.last_smp_time = 5 ∧
    (8 : Int) - 5 < 10 ∧
    (analog_input_report_data 10 ⟨[accumulate_profile]⟩
      (do_step 10 ⟨[accumulate_profile]⟩ (ready_data 1)
        (dev_step.tick (good_tick 5 (fun _ => 1707)))).data
      (good_tick 8 (fun _ => 1705))).data.delta = [12] := by
  decide

/-- C13 (amended): with a report interval `I > 0`, on every tick that reaches
line 111 (device ready, acquisition succeeded) the arrays are purged exactly
when the time since the previous sampling tick is at least `I`, whether or not
the previous tick emitted an event: then `delta[i]` and `prev[i]` are 0 for
every channel after the tick and the tick emits no event; when that time is
less than `I`, lines 111-116 change nothing. -/
theorem C13_purge_when_interval_elapsed (I : Nat) (cfg : analog_input_config)
    (d : analog_input_data) (inp : tick_input) (hI : 0 < I) (hwf : well_formed cfg d)
    (hready : d.ready = true) (herr : ¬ inp.err < 0) (hsig : inp.signaled = true) :
    (inp.now - d.last_smp_time ≥ (I : Int) →
      (analog_input_report_data I cfg d inp).events = [] ∧
      ∀ i, i < cfg.io_channels_len →
        (analog_input_report_data I cfg d inp).data.delta.getD i 0 = 0 ∧
        (analog_input_report_data I cfg d inp).data.prev.getD i 0 = 0) ∧
    (inp.now - d.last_smp_time < (I : Int) →
      ∀ xs : List Int, after_purge I cfg d inp.now xs = xs) := by
  rw [tick_eq_report_phase I cfg d inp hready herr hsig]
  constructor
  · intro h
    exact report_phase_purged I cfg d inp.now _ (by rw [sample_loop_length]; exact hwf.1)
      hwf.2 ⟨hI, h⟩
  · intro h xs
    exact after_purge_not_due I cfg d inp.now xs (fun hp => by
      have := hp.2
      omega)

/-- C13 witness: report interval 10; the tick at time 5 is suppressed and
stores 7, and the tick at time 20, 15 after it, leaves `delta[0]` and
`prev[0]` 0 and emits nothing. -/
theorem C13_purge_when_interval_elapsed_witness :
    (analog_input_report_data 10 ⟨[accumulate_profile]⟩
      (do_step 10 ⟨[accumulate_profile]⟩ (ready_data 1)
        (dev_step.tick (good_tick 5 (fun _ => 1707)))).data
      (good_tick 20 (fun _ => 1705))).events = [] ∧
    (analog_input_report_data 10 ⟨[accumulate_profile]⟩
      (do_step 10 ⟨[accumulate_profile]⟩ (ready_data 1)
        (dev_step.tick (good_tick 5 (fun _ => 1707)))).data
      (good_tick 20 (fun _ => 1705))).data.delta.getD 0 0 = 0 ∧
    (analog_input_report_data 10 ⟨[accumulate_profile]⟩
      (do_step 10 ⟨[accumulate_profile]⟩ (ready_data 1)
        (dev_step.tick (good_tick 5 (fun _ => 1707)))).data
      (good_tick 20 (fun _ => 1705))).data.prev.getD 0 0 = 0 :=
  have h := (C13_purge_when_interval_elapsed 10 ⟨[accumulate_profile]⟩
    (do_step 10 ⟨[accumulate_profile]⟩ (ready_data 1)
      (dev_step.tick (good_tick 5 (fun _ => 1707)))).data
    (good_tick 20 (fun _ => 1705)) (by decide) ⟨rfl, rfl⟩ rfl (by decide) rfl).1 (by decide)
  ⟨h.1, (h.2 0 (by decide)).1, (h.2 0 (by decide)).2⟩

/-- C14 (as stated, refuted): report interval 10, one on-change channel, device
not active.  The tick at time 10 is gated by `actived == false`, its reading
is conditioned to 50, but the purge fires and `delta[0]` is 0 after the tick,
not 50. -/
theorem C14_counterexample :
    ({ ready_data 1 with actived := false } : analog_input_data).actived = false ∧
    conditioned scenario_profile 1750 = 50 ∧
    analog_input_report_data 10 ⟨[scenario_profile]⟩ { ready_data 1 with actived := false }
        (good_tick 10 (fun _ => 1750)) =
      { data := { ready_data 1 with actived := false, delta := [0], prev := [0],
                                    last_smp_time := 10 }
        events := [], ret := call_end.returned 0 } := by
  decide

/-- C14 (amended): a tick that reaches line 106 (device ready, acquisition
succeeded) and is gated, by `actived == false` or by the report interval,
returns 0 without an event.  If the purge of lines 111-116 does not fire, then
after the tick `delta[i]` is the conditioned value for an on-change channel
and the previous `delta[i]` plus the conditioned value (as `int32`) for an
accumulate channel, and `prev` is unchanged; if the purge fires, `delta[i]`
and `prev[i]` are 0 for every channel. -/
theorem C14_gated_tick (I : Nat) (cfg : analog_input_config) (d : analog_input_data)
    (inp : tick_input) (hwf : well_formed cfg d)
    (hready : d.ready = true) (herr : ¬ inp.err < 0) (hsig : inp.signaled = true)
    (hg : suppress_due I d inp.now ∨ d.actived = false) :
    (analog_input_report_data I cfg d inp).events = [] ∧
    (analog_input_report_data I cfg d inp).ret = call_end.returned 0 ∧
    (¬ purge_due I d inp.now →
      (∀ i ch, cfg.io_channels[i]? = some ch →
        (analog_input_report_data I cfg d inp).data.delta.getD i 0 =
          if ch.report_on_change_only then conditioned ch (inp.mv i)
          else wrap32 (d.delta.getD i 0 + conditioned ch (inp.mv i))) ∧
      (analog_input_report_data I cfg d inp).data.prev = d.prev) ∧
    (purge_due I d inp.now →
      ∀ i, i < cfg.io_channels_len →
        (analog_input_report_data I cfg d inp).data.delta.getD i 0 = 0 ∧
        (analog_input_report_data I cfg d inp).data.prev.getD i 0 = 0) := by
  rw [tick_eq_report_phase I cfg d inp hready herr hsig]
  obtain ⟨e0, e1, e2, e3⟩ := report_phase_gated I cfg d inp.now
    (sample_loop inp.mv cfg.io_channels 0 d.delta) hg
  refine ⟨e0, e1, fun hp => ⟨fun i ch hch => ?_, ?_⟩, fun hp => ?_⟩
  · rw [e2, after_purge_not_due _ _ _ _ _ hp]
    exact sample_loop_channel cfg d inp.mv i ch hch hwf.1
  · rw [e3, after_purge_not_due _ _ _ _ _ hp]
  · exact (report_phase_purged I cfg d inp.now _ (by rw [sample_loop_length]; exact hwf.1)
      hwf.2 hp).2

/-- C14 witness: no report interval, one accumulate channel holding -5, device
not active; a reading conditioned to 7 leaves `delta[0] == 2`, `prev`
unchanged, no event. -/
theorem C14_gated_tick_witness :
    (analog_input_report_data 0 ⟨[accumulate_profile]⟩
      { ready_data 1 with actived := false, delta := [-5] }
      (good_tick 0 (fun _ => 1707))).events = [] ∧
    (analog_input_report_data 0 ⟨[accumulate_profile]⟩
      { ready_data 1 with actived := false, delta := [-5] }
      (good_tick 0 (fun _ => 1707))).data.delta.getD 0 0 =
      (if accumulate_profile.report_on_change_only then conditioned accumulate_profile 1707
        else wrap32 (-5 + conditioned accumulate_profile 1707)) ∧
    (analog_input_report_data 0 ⟨[accumulate_profile]⟩
      { ready_data 1 with actived := false, delta := [-5] }
      (good_tick 0 (fun _ => 1707))).data.prev = [0] :=
  have h := C14_gated_tick 0 ⟨[accumulate_profile]⟩
    { ready_data 1 with actived := false, delta := [-5] } (good_tick 0 (fun _ => 1707))
    ⟨rfl, rfl⟩ rfl (by decide) rfl (Or.inr rfl)
  ⟨h.1, (h.2.2.1 (by decide)).1 0 accumulate_profile rfl, (h.2.2.1 (by decide)).2⟩

/-- C15: without inversion, with `scale_multiplier >= 0` and
`scale_divisor > 0`, two readings `a <= b` for which no conversion of lines
75-92 wraps (the deadzone and the offsets fit in `int16`, the products fit in
`int`, the quotients fit in `int16`) are conditioned in the same order. -/
theorem C15_order_preserving (p : analog_input_io_channel) (a b : Int)
    (hinv : p.invert = false) (hm : 0 ≤ p.scale_multiplier) (hd : 0 < p.scale_divisor)
    (hab : a ≤ b) (hdz : p.mv_deadzone ≤ 32767)
    (ha : fits16 (spec_offset p a)) (hb : fits16 (spec_offset p b))
    (hma : fits32 (spec_clamp p (spec_deadzone p (spec_offset p a)) * p.scale_multiplier))
    (hmb : fits32 (spec_clamp p (spec_deadzone p (spec_offset p b)) * p.scale_multiplier))
    (hqa : fits16 (condition_spec a p)) (hqb : fits16 (condition_spec b p)) :
    conditioned p a ≤ conditioned p b := by
  have hi : ∀ v, spec_invert p v = v := by
    intro v
    unfold spec_invert
    simp [hinv]
  have ea : conditioned p a = condition_spec a p :=
    conditioned_eq_spec_of_fits p a hdz ha
      (by rw [hi]; exact spec_clamp_fits p (spec_deadzone_fits p ha)) (by rw [hi]; exact hma) hqa
  have eb : conditioned p b = condition_spec b p :=
    conditioned_eq_spec_of_fits p b hdz hb
      (by rw [hi]; exact spec_clamp_fits p (spec_deadzone_fits p hb)) (by rw [hi]; exact hmb) hqb
  rw [ea, eb]
  exact condition_spec_mono p hinv hm hd hab

/-- C15 witness: the scenario profile scaled by 3/2, readings 1500 and
1900. -/
theorem C15_order_preserving_witness :
    conditioned { scenario_profile with scale_multiplier := 3, scale_divisor := 2 } 1500
      ≤ conditioned { scenario_profile with scale_multiplier := 3, scale_divisor := 2 } 1900 :=
  C15_order_preserving { scenario_profile with scale_multiplier := 3, scale_divisor := 2 }
    1500 1900 rfl (by decide) (by decide) (by decide) (by decide) (by decide) (by decide)
    (by decide) (by decide) (by decide) (by decide)

/-- C16 (as stated, refuted): with scale 2/1 the reading 1750 is conditioned to
100, and conditioning 100 again (no offset, no deadzone, same clamp and scale)
gives 200; with inversion the reading 1750 is conditioned to -50, and
conditioning -50 again gives 50. -/
theorem C16_counterexample :
    ({ scenario_profile with scale_multiplier := 2 } : analog_input_io_channel).scale_divisor
      ≠ 0 ∧
    conditioned { scenario_profile with scale_multiplier := 2 } 1750 = 100 ∧
    conditioned (reapply_profile { scenario_profile with scale_multiplier := 2 }) 100 = 200 ∧
    conditioned { scenario_profile with invert := true } 1750 = -50 ∧
    conditioned (reapply_profile { scenario_profile with invert := true }) (-50) = 50 := by
  decide

/-- C16 (amended): for a profile without inversion whose `scale_multiplier`
equals its nonzero `scale_divisor`, and a reading whose product with the
multiplier fits in `int`, conditioning the conditioned value `c` again, with
no midpoint offset, `mv_deadzone = 0` and the same clamp and scale, yields `c`
again. -/
theorem C16_idempotent_unit_scale (p : analog_input_io_channel) (mv : Int)
    (hd : p.scale_divisor ≠ 0) (hinv : p.invert = false)
    (hscale : p.scale_multiplier = p.scale_divisor)
    (hmul : fits32 (cond_clamp p (cond_deadzone p (cond_offset p mv)) * p.scale_multiplier)) :
    conditioned (reapply_profile p) (conditioned p mv) = conditioned p mv := by
  have hw : fits16 (cond_deadzone p (cond_offset p mv)) :=
    cond_deadzone_fits p (wrap16_fits _)
  have hu : fits16 (cond_clamp p (cond_deadzone p (cond_offset p mv))) := by
    rw [cond_clamp_eq_spec p hw]
    exact spec_clamp_fits p hw
  have hres : ∀ q : analog_input_io_channel, q.invert = false →
      q.scale_multiplier = p.scale_multiplier → q.scale_divisor = p.scale_divisor →
      cond_rescale q (cond_invert q (cond_clamp p (cond_deadzone p (cond_offset p mv))))
        = cond_clamp p (cond_deadzone p (cond_offset p mv)) := by
    intro q hq1 hq2 hq3
    unfold cond_rescale cond_invert
    simp only [hq1, Bool.false_eq_true, if_false, hq2, hq3]
    rw [wrap32_of_fits hmul, hscale, Int.mul_tdiv_cancel _ hd]
    exact wrap16_of_fits hu
  have hc : conditioned p mv = cond_clamp p (cond_deadzone p (cond_offset p mv)) := by
    unfold conditioned
    exact hres p hinv rfl rfl
  rw [hc]
  unfold conditioned
  have h1 : cond_offset (reapply_profile p)
      (cond_clamp p (cond_deadzone p (cond_offset p mv)))
      = cond_clamp p (cond_deadzone p (cond_offset p mv)) := by
    unfold cond_offset reapply_profile
    simp only [Int.sub_zero]
    exact wrap16_of_fits hu
  have h2 : ∀ v, cond_deadzone (reapply_profile p) v = v := by
    intro v
    simp [cond_deadzone, reapply_profile, wrap16]
  have h3 : cond_clamp (reapply_profile p) (cond_clamp p (cond_deadzone p (cond_offset p mv)))
      = cond_clamp p (cond_deadzone p (cond_offset p mv)) := by
    rw [cond_clamp_eq_spec (reapply_profile p) hu, cond_clamp_eq_spec p hw]
    exact spec_clamp_idem p (reapply_profile p) rfl _
  rw [h1, h2, h3]
  exact hres (reapply_profile p) hinv rfl rfl

/-- C16 witness: the scenario profile with scale 3/3 and the reading 1900. -/
theorem C16_idempotent_unit_scale_witness :
    conditioned
      (reapply_profile { scenario_profile with scale_multiplier := 3, scale_divisor := 3 })
      (conditioned { scenario_profile with scale_multiplier := 3, scale_divisor := 3 } 1900)
      = conditioned { scenario_profile with scale_multiplier := 3, scale_divisor := 3 } 1900 :=
  C16_idempotent_unit_scale { scenario_profile with scale_multiplier := 3, scale_divisor := 3 }
    1900 (by decide) rfl rfl (by decide)

/-- C17 (evaluation, in general): a tick that reaches the emission phase
(device ready and active, acquisition succeeded, not suppressed) with one slot
per channel, at most 255 channels and no reportable channel does not return
0: the scan reads `delta[255]`, outside the arrays, and the call ends there,
without an event. -/
theorem C17_scan_reads_index_255 (I : Nat) (cfg : analog_input_config)
    (d : analog_input_data) (inp : tick_input)
    (hlen : cfg.io_channels_len ≤ 255) (hwf : well_formed cfg d)
    (hready : d.ready = true) (herr : ¬ inp.err < 0) (hsig : inp.signaled = true)
    (hsupp : ¬ suppress_due I d inp.now) (hact : d.actived = true)
    (hnone : ∀ k, k < cfg.io_channels_len →
      ¬ reportable (after_purge I cfg d inp.now (sample_loop inp.mv cfg.io_channels 0 d.delta))
        (after_purge I cfg d inp.now d.prev) k) :
    sync_scan cfg.io_channels_len
        (after_purge I cfg d inp.now (sample_loop inp.mv cfg.io_channels 0 d.delta))
        (after_purge I cfg d inp.now d.prev) = scan_result.out_of_bounds 255 ∧
    (analog_input_report_data I cfg d inp).ret = call_end.out_of_bounds 255 ∧
    (analog_input_report_data I cfg d inp).ret ≠ call_end.returned 0 ∧
    (analog_input_report_data I cfg d inp).events = [] := by
  have hscan := sync_scan_none cfg.io_channels_len _ _ hlen
    (by rw [after_purge_length, sample_loop_length]; exact hwf.1)
    (by rw [after_purge_length]; exact hwf.2) hnone
  obtain ⟨hret, hev⟩ := report_phase_out_of_bounds I cfg d inp.now _ 255 hsupp hact hscan
  rw [tick_eq_report_phase I cfg d inp hready herr hsig]
  refine ⟨hscan, hret, ?_, hev⟩
  rw [hret]
  simp

/-- C17 witness: a device with no channel at all. -/
theorem C17_scan_reads_index_255_witness :
    sync_scan (⟨[]⟩ : analog_input_config).io_channels_len
        (after_purge 0 ⟨[]⟩ (ready_data 0) 0
          (sample_loop (fun _ => 0) (⟨[]⟩ : analog_input_config).io_channels 0
            (ready_data 0).delta))
        (after_purge 0 ⟨[]⟩ (ready_data 0) 0 (ready_data 0).prev)
      = scan_result.out_of_bounds 255 ∧
    (analog_input_report_data 0 ⟨[]⟩ (ready_data 0) (good_tick 0 (fun _ => 0))).ret
      = call_end.out_of_bounds 255 ∧
    (analog_input_report_data 0 ⟨[]⟩ (ready_data 0) (good_tick 0 (fun _ => 0))).ret
      ≠ call_end.returned 0 ∧
    (analog_input_report_data 0 ⟨[]⟩ (ready_data 0) (good_tick 0 (fun _ => 0))).events = [] :=
  C17_scan_reads_index_255 0 ⟨[]⟩ (ready_data 0) (good_tick 0 (fun _ => 0)) (by decide)
    ⟨rfl, rfl⟩ rfl (by decide) rfl (by decide) rfl (fun k hk => absurd hk (Nat.not_lt_zero k))

/-- C18: in the emission loop of lines 141-160, entered with one slot per
channel in `dl` and `pv`: for a reportable channel `i` exactly one event is
emitted for `i`, its value is the `delta[i]` the loop was entered with,
`delta[i]` becomes 0, and `prev[i]` becomes that value in on-change mode and
is unchanged in accumulate mode; for a channel that is not reportable no event
is emitted and `delta[i]` and `prev[i]` are unchanged. -/
theorem C18_emission_effect (rpt : Bool) (now t idx : Int) (cfg : analog_input_config)
    (dl pv : List Int) (i : Nat) (ch : analog_input_io_channel)
    (hd : dl.length = cfg.io_channels_len) (hp : pv.length = cfg.io_channels_len)
    (hch : cfg.io_channels[i]? = some ch) :
    (reportable dl pv i →
      events_of i (emit_loop rpt now idx cfg.io_channels 0
        { delta := dl, prev := pv, last_rpt_time := t, events := [] }).events
        = [event_for ch i (dl.getD i 0) idx] ∧
      (event_for ch i (dl.getD i 0) idx).value = dl.getD i 0 ∧
      (emit_loop rpt now idx cfg.io_channels 0
        { delta := dl, prev := pv, last_rpt_time := t, events := [] }).delta.getD i 0 = 0 ∧
      (emit_loop rpt now idx cfg.io_channels 0
        { delta := dl, prev := pv, last_rpt_time := t, events := [] }).prev.getD i 0
        = if ch.report_on_change_only then dl.getD i 0 else pv.getD i 0) ∧
    (¬ reportable dl pv i →
      events_of i (emit_loop rpt now idx cfg.io_channels 0
        { delta := dl, prev := pv, last_rpt_time := t, events := [] }).events = [] ∧
      (emit_loop rpt now idx cfg.io_channels 0
        { delta := dl, prev := pv, last_rpt_time := t, events := [] }).delta.getD i 0
        = dl.getD i 0 ∧
      (emit_loop rpt now idx cfg.io_channels 0
        { delta := dl, prev := pv, last_rpt_time := t, events := [] }).prev.getD i 0
        = pv.getD i 0) := by
  have hi := channel_index_lt hch
  have hev := emit_loop_events_of_at rpt now idx cfg.io_channels 0
    { delta := dl, prev := pv, last_rpt_time := t, events := [] } i ch hch
  have hat := emit_loop_at rpt now idx cfg.io_channels 0
    { delta := dl, prev := pv, last_rpt_time := t, events := [] } i ch hch
    (by simp only [Nat.zero_add]; omega) (by simp only [Nat.zero_add]; omega)
  simp only [Nat.zero_add] at hev hat
  constructor
  · intro hr
    rw [hev, hat.1, hat.2, if_pos hr, if_pos hr]
    refine ⟨rfl, rfl, rfl, ?_⟩
    by_cases hc : ch.report_on_change_only = true
    · rw [if_pos ⟨hr, hc⟩, if_pos hc]
    · rw [if_neg (fun h => hc h.2), if_neg hc]
  · intro hr
    rw [hev, hat.1, hat.2, if_neg hr, if_neg hr, if_neg (fun h => hr h.1)]
    exact ⟨rfl, rfl, rfl⟩

/-- C18 witness: an accumulate channel 0 holding 7 and an on-change channel 1
at rest; channel 0 is reported with value 7, channel 1 is not. -/
theorem C18_emission_effect_witness :
    (events_of 0 (emit_loop false 0 1 two_channels.io_channels 0
        { delta := [7, 3], prev := [0, 3], last_rpt_time := 0, events := [] }).events
        = [event_for accumulate_profile 0 (([7, 3] : List Int).getD 0 0) 1] ∧
      (event_for accumulate_profile 0 (([7, 3] : List Int).getD 0 0) 1).value
        = ([7, 3] : List Int).getD 0 0 ∧
      (emit_loop false 0 1 two_channels.io_channels 0
        { delta := [7, 3], prev := [0, 3], last_rpt_time := 0, events := [] }).delta.getD 0 0
        = 0 ∧
      (emit_loop false 0 1 two_channels.io_channels 0
        { delta := [7, 3], prev := [0, 3], last_rpt_time := 0, events := [] }).prev.getD 0 0
        = if accumulate_profile.report_on_change_only then ([7, 3] : List Int).getD 0 0
          else ([0, 3] : List Int).getD 0 0) ∧
    (events_of 1 (emit_loop false 0 1 two_channels.io_channels 0
        { delta := [7, 3], prev := [0, 3], last_rpt_time := 0, events := [] }).events = [] ∧
      (emit_loop false 0 1 two_channels.io_channels 0
        { delta := [7, 3], prev := [0, 3], last_rpt_time := 0, events := [] }).delta.getD 1 0
        = ([7, 3] : List Int).getD 1 0 ∧
      (emit_loop false 0 1 two_channels.io_channels 0
        { delta := [7, 3], prev := [0, 3], last_rpt_time := 0, events := [] }).prev.getD 1 0
        = ([0, 3] : List Int).getD 1 0) :=
  ⟨(C18_emission_effect false 0 0 1 two_channels [7, 3] [0, 3] 0
      accumulate_profile rfl rfl rfl).1 (by decide),
   (C18_emission_effect false 0 0 1 two_channels [7, 3] [0, 3] 1
      scenario_profile rfl rfl rfl).2 (by decide)⟩

/-- C19: with a report interval `I > 0` and one slot per channel, on a tick
that reaches line 111 with `now - last_smp_time >= I` the purge clears what
the sampling loop has just stored: `delta[i]` and `prev[i]` are 0 for every
channel when the emission phase is reached, and the tick emits no event,
whatever the readings.  Consequently, from `last_smp_time = last_rpt_time = 0`,
in every sequence of steps whose sampling cycles are at least `I` apart no
executed step emits an event. -/
theorem C19_purge_after_store (I : Nat) (cfg : analog_input_config) (d : analog_input_data)
    (inp : tick_input) (steps : List dev_step) (hI : 0 < I) (hwf : well_formed cfg d) :
    (d.ready = true → ¬ inp.err < 0 → inp.signaled = true →
      inp.now - d.last_smp_time ≥ (I : Int) →
      (∀ i, i < cfg.io_channels_len →
        (after_purge I cfg d inp.now
          (sample_loop inp.mv cfg.io_channels 0 d.delta)).getD i 0 = 0 ∧
        (after_purge I cfg d inp.now d.prev).getD i 0 = 0) ∧
      (analog_input_report_data I cfg d inp).events = []) ∧
    (d.last_smp_time = 0 → d.last_rpt_time = 0 → spaced_by I (tick_times steps) →
      ∀ r ∈ run_records I cfg d steps, r.out.events = []) := by
  constructor
  · intro hready herr hsig hge
    have hp : purge_due I d inp.now := ⟨hI, hge⟩
    refine ⟨fun i hi => ?_, ?_⟩
    · rw [after_purge_getD _ _ _ _ _ _ hi, after_purge_getD _ _ _ _ _ _ hi, if_pos hp,
        if_pos hp]
      exact ⟨rfl, rfl⟩
    · rw [tick_eq_report_phase I cfg d inp hready herr hsig]
      exact (report_phase_purged I cfg d inp.now _ (by rw [sample_loop_length]; exact hwf.1)
        hwf.2 hp).1
  · intro hsmp hrpt hsp
    exact run_records_silent I cfg hI steps d hwf hrpt (Or.inl hsmp) hsp

/-- C19 witness: report interval 10, one on-change channel reading 1750
(conditioned to 50).  A first tick at time 13 is purged and emits nothing;
with ticks at times 3 and 13 the second one emits nothing either. -/
theorem C19_purge_after_store_witness :
    (analog_input_report_data 10 ⟨[scenario_profile]⟩ (ready_data 1)
      (good_tick 13 (fun _ => 1750))).events = [] ∧
    (do_step 10 ⟨[scenario_profile]⟩
      (after_steps 10 ⟨[scenario_profile]⟩ (ready_data 1)
        [dev_step.tick (good_tick 3 (fun _ => 1750))])
      (dev_step.tick (good_tick 13 (fun _ => 1750)))).events = [] :=
  have h := C19_purge_after_store 10 ⟨[scenario_profile]⟩ (ready_data 1)
    (good_tick 13 (fun _ => 1750))
    [dev_step.tick (good_tick 3 (fun _ => 1750)), dev_step.tick (good_tick 13 (fun _ => 1750))]
    (by decide) ⟨rfl, rfl⟩
  ⟨(h.1 rfl (by decide) rfl (by decide)).2,
   h.2 rfl rfl (by simp [spaced_by, tick_times, good_tick])
    { pre := after_steps 10 ⟨[scenario_profile]⟩ (ready_data 1)
        [dev_step.tick (good_tick 3 (fun _ => 1750))]
      step := dev_step.tick (good_tick 13 (fun _ => 1750))
      out := do_step 10 ⟨[scenario_profile]⟩
        (after_steps 10 ⟨[scenario_profile]⟩ (ready_data 1)
          [dev_step.tick (good_tick 3 (fun _ => 1750))])
        (dev_step.tick (good_tick 13 (fun _ => 1750))) }
    (List.mem_cons_of_mem _ (List.mem_cons_self _ _))⟩

/-- C20: under a clock that starts at 0 or later and never goes back, from
`last_smp_time = last_rpt_time = 0`, `last_rpt_time <= last_smp_time` holds
before and after every executed step (a cycle that returns early included),
and on no cycle are the purge test of line 111 and the suppress test of line
122 both true. -/
theorem C20_report_time_le_sample_time (I : Nat) (cfg : analog_input_config)
    (d : analog_input_data) (steps : List dev_step)
    (hsmp : d.last_smp_time = 0) (hrpt : d.last_rpt_time = 0)
    (hclk : clock_non_decreasing (tick_times steps))
    (r : step_record) (hr : r ∈ run_records I cfg d steps) :
    r.pre.last_rpt_time ≤ r.pre.last_smp_time ∧
    r.out.data.last_rpt_time ≤ r.out.data.last_smp_time ∧
    ∀ inp, r.step = dev_step.tick inp →
      ¬ (purge_due I r.pre inp.now ∧ suppress_due I r.pre inp.now) := by
  obtain ⟨h1, h2⟩ := run_records_ordered I cfg steps d 0 (by rw [hsmp, hrpt])
    (by rw [hsmp]) hclk r hr
  refine ⟨h1, h2, fun inp _ hboth => ?_⟩
  obtain ⟨⟨_, hp⟩, ⟨_, hs⟩⟩ := hboth
  omega

/-- C20 witness: report interval 10, one on-change channel reading 1750, ticks
at times 3, 5 and 12.  The third tick is neither purged nor suppressed and
reports, leaving both timestamps at 12. -/
theorem C20_report_time_le_sample_time_witness :
    (after_steps 10 ⟨[scenario_profile]⟩ (ready_data 1)
      [dev_step.tick (good_tick 3 (fun _ => 1750)),
       dev_step.tick (good_tick 5 (fun _ => 1750))]).last_rpt_time
      ≤ (after_steps 10 ⟨[scenario_profile]⟩ (ready_data 1)
        [dev_step.tick (good_tick 3 (fun _ => 1750)),
         dev_step.tick (good_tick 5 (fun _ => 1750))]).last_smp_time ∧
    (do_step 10 ⟨[scenario_profile]⟩
      (after_steps 10 ⟨[scenario_profile]⟩ (ready_data 1)
        [dev_step.tick (good_tick 3 (fun _ => 1750)),
         dev_step.tick (good_tick 5 (fun _ => 1750))])
      (dev_step.tick (good_tick 12 (fun _ => 1750)))).data.last_rpt_time
      ≤ (do_step 10 ⟨[scenario_profile]⟩
        (after_steps 10 ⟨[scenario_profile]⟩ (ready_data 1)
          [dev_step.tick (good_tick 3 (fun _ => 1750)),
           dev_step.tick (good_tick 5 (fun _ => 1750))])
        (dev_step.tick (good_tick 12 (fun _ => 1750)))).data.last_smp_time ∧
    ¬ (purge_due 10 (after_steps 10 ⟨[scenario_profile]⟩ (ready_data 1)
          [dev_step.tick (good_tick 3 (fun _ => 1750)),
           dev_step.tick (good_tick 5 (fun _ => 1750))]) 12 ∧
        suppress_due 10 (after_steps 10 ⟨[scenario_profile]⟩ (ready_data 1)
          [dev_step.tick (good_tick 3 (fun _ => 1750)),
           dev_step.tick (good_tick 5 (fun _ => 1750))]) 12) :=
  have h := C20_report_time_le_sample_time 10 ⟨[scenario_profile]⟩ (ready_data 1)
    [dev_step.tick (good_tick 3 (fun _ => 1750)), dev_step.tick (good_tick 5 (fun _ => 1750)),
     dev_step.tick (good_tick 12 (fun _ => 1750))]
    rfl rfl (by simp [clock_non_decreasing, tick_times, good_tick])
    { pre := after_steps 10 ⟨[scenario_profile]⟩ (ready_data 1)
        [dev_step.tick (good_tick 3 (fun _ => 1750)),
         dev_step.tick (good_tick 5 (fun _ => 1750))]
      step := dev_step.tick (good_tick 12 (fun _ => 1750))
      out := do_step 10 ⟨[scenario_profile]⟩
        (after_steps 10 ⟨[scenario_profile]⟩ (ready_data 1)
          [dev_step.tick (good_tick 3 (fun _ => 1750)),
           dev_step.tick (good_tick 5 (fun _ => 1750))])
        (dev_step.tick (good_tick 12 (fun _ => 1750))) }
    (List.mem_cons_of_mem _ (List.mem_cons_of_mem _ (List.mem_cons_self _ _)))
  ⟨h.1, h.2.1, h.2.2 (good_tick 12 (fun _ => 1750)) rfl⟩

end AnalogInput
